import Mathlib

/-!
Verification development for the FHIR specification reader's type-graph
builder (`src/processor.ts`, compiled as `lib/processor.js`).

The development shallowly embeds the processor: the mutable closure state of
`processFiles` (the files map with its per-file visit flags, the type heap,
the name registry, the ordered output list, the error list and the
current-file cursor) becomes an explicit `PState` record, and the mutually
recursive helper functions become a single fuel-indexed interpreter `exec`
over a `Call` descriptor.  Pure helpers (naming, collision resolution,
polymorphic property expansion) are embedded as plain functions and shared
with the interpreter.

JavaScript-specific semantics preserved by the embedding:
* string/`undefined` truthiness is modelled by `truthyS` over `Option String`
  (both `undefined` and the empty string are falsy);
* `String.prototype.replace` with a string pattern replaces only the first
  occurrence (`replaceFirst`);
* `for (const x of arr)` captures the iterable once at loop entry, so a
  reassignment of the loop variable's array binding inside the loop does not
  extend the iteration (relevant to `getTypeReferences`);
* object-key iteration (`for in`) runs in insertion order, modelled by an
  insertion-ordered association list.
-/

/-- JavaScript truthiness for a string-or-undefined value: `undefined` and
the empty string are falsy, every other string is truthy. -/
def truthyS (s : Option String) : Bool :=
  match s with
  | none => false
  | some t => !t.data.isEmpty

/-- If `pat` is a prefix of `s`, return the remainder of `s`. -/
def dropPat (pat s : List Char) : Option (List Char) :=
  match pat, s with
  | [], rest => some rest
  | _ :: _, [] => none
  | p :: ps, c :: cs => if p == c then dropPat ps cs else none

/-- Index (in characters) of the first occurrence of `pat` in `s`. -/
def findPat (pat s : List Char) : Option Nat :=
  match s with
  | [] =>
      match pat with
      | [] => some 0
      | _ :: _ => none
  | _ :: cs =>
      if (dropPat pat s).isSome then some 0
      else (findPat pat cs).map (· + 1)

/-- Substring containment test, used to model JavaScript
`s.indexOf(pat) !== -1`. -/
def substrContains (s pat : String) : Bool :=
  (findPat pat.data s.data).isSome

/-- Model of JavaScript `s.replace(pat, repl)` with a string pattern:
replaces only the first occurrence. -/
def replaceFirst (s pat repl : String) : String :=
  match findPat pat.data s.data with
  | none => s
  | some i => String.mk (s.data.take i ++ repl.data ++ s.data.drop (i + pat.data.length))

/-- Model of JavaScript `s.indexOf(pat)` restricted to the information the
source uses: the index of the first occurrence, or `none`. -/
def strIndexOf (s pat : String) : Option Nat :=
  findPat pat.data s.data

/-- Split a character list on a separator character (JavaScript
`s.split(sep)` semantics: splitting the empty string yields one empty
part). `cur` holds the current part reversed. -/
def splitCharGo (sep : Char) (cur : List Char) (rest : List Char) : List (List Char) :=
  match rest with
  | [] => [cur.reverse]
  | c :: cs =>
      if c == sep then cur.reverse :: splitCharGo sep [] cs
      else splitCharGo sep (c :: cur) cs

/-- Model of JavaScript `s.split(sep)` for a single-character separator. -/
def splitStr (s : String) (sep : Char) : List String :=
  (splitCharGo sep [] s.data).map String.mk

/-- Join a list of strings with a single-character separator (JavaScript
`parts.join(sep)`). -/
def joinStr (parts : List String) (sep : Char) : String :=
  match parts with
  | [] => ""
  | p :: rest => rest.foldl (fun acc q => acc ++ String.mk [sep] ++ q) p

/-- Model of JavaScript `s.trim()`: strip leading and trailing whitespace. -/
def trimStr (s : String) : String :=
  String.mk (((s.data.dropWhile Char.isWhitespace).reverse.dropWhile
    Char.isWhitespace).reverse)

/-- Character-indexed suffix, modelling `s.substring(i)` on ASCII data. -/
def strDropChars (s : String) (i : Nat) : String :=
  String.mk (s.data.drop i)

/-- Model of `startsWithNumber` from the source: the first UTF-16 unit is an
ASCII digit (`charCodeAt(0)` of the empty string is `NaN`, which fails the
range test). -/
def startsWithNumber (text : String) : Bool :=
  match text.toList with
  | [] => false
  | c :: _ => 48 ≤ c.toNat && c.toNat ≤ 57

/-- ASCII alphanumeric test matching the `[^a-zA-Z0-9]` word separator of the
`change-case` library's `noCase`. -/
def isAsciiWordChar (c : Char) : Bool :=
  (65 ≤ c.toNat && c.toNat ≤ 90) || (97 ≤ c.toNat && c.toNat ≤ 122) ||
    (48 ≤ c.toNat && c.toNat ≤ 57)

/-- ASCII lower-case test. -/
def isAsciiLower (c : Char) : Bool := 97 ≤ c.toNat && c.toNat ≤ 122

/-- ASCII upper-case test. -/
def isAsciiUpper (c : Char) : Bool := 65 ≤ c.toNat && c.toNat ≤ 90

/-- ASCII digit test. -/
def isAsciiDigit (c : Char) : Bool := 48 ≤ c.toNat && c.toNat ≤ 57

/-- Modelled from the `change-case` dependency: word splitting of `noCase`.
Words are maximal alphanumeric runs further split at camel-case boundaries
(between a lower-case letter or digit and an upper-case letter, and between
an upper-case run and an upper-case letter followed by a lower-case
letter). `acc` holds the current word reversed. -/
def wordsGo (acc : List Char) (rest : List Char) : List (List Char) :=
  match rest with
  | [] => if acc.isEmpty then [] else [acc.reverse]
  | c :: cs =>
      if isAsciiWordChar c then
        let boundary :=
          match acc with
          | p :: _ =>
              ((isAsciiLower p || isAsciiDigit p) && isAsciiUpper c) ||
                (isAsciiUpper p && isAsciiUpper c &&
                  (match cs with
                   | n :: _ => isAsciiLower n
                   | [] => false))
          | [] => false
        if boundary then acc.reverse :: wordsGo [c] cs
        else wordsGo (c :: acc) cs
      else
        if acc.isEmpty then wordsGo [] cs
        else acc.reverse :: wordsGo [] cs

/-- ASCII lower-casing of a character (`toLowerCase` in `noCase`). -/
def asciiLower (c : Char) : Char :=
  if isAsciiUpper c then Char.ofNat (c.toNat + 32) else c

/-- ASCII upper-casing of a character (`upperCaseFirst` in `pascalCase`). -/
def asciiUpper (c : Char) : Char :=
  if isAsciiLower c then Char.ofNat (c.toNat - 32) else c

/-- Modelled from the `change-case` dependency: `pascalCase` lower-cases a
word (as `noCase` does) and then upper-cases its first character. -/
def pascalWord (w : List Char) : List Char :=
  match w with
  | [] => []
  | c :: rest => asciiUpper c :: rest.map asciiLower

/-- Modelled from the `change-case` dependency used by the source: split
into words at non-alphanumeric characters and camel-case boundaries,
capitalize each word, and concatenate. -/
def pascalCase (s : String) : String :=
  String.mk (((wordsGo [] s.toList).map pascalWord).flatten)

/-! ## Data model

Embedded from the declaration file shipped with the repository
(`SpecificationFile`, `Type`/`TypeKind`/`TypeCategory`, `Property`,
`EnumMember`) and from the fields of the parsed FHIR documents that
`processor.ts` reads.  Mutable type nodes (interfaces, enums, primitives)
live in an append-only heap indexed by `Nat`; `TypeExpr` is the value form
of a type (references, arrays, unions, heap pointers).
-/

/-- FHIR extension entry, as read by `getExtension` /
`getExtensionValueString`. -/
structure FExtension where
  url : String
  valueString : Option String
deriving Repr, DecidableEq

/-- A value-set / code-system concept, with the fields the processor
reads. -/
structure FConcept where
  code : Option String
  display : Option String
  definition : Option String
  extension : Option (List FExtension)
deriving Repr, DecidableEq

/-- A `compose.include.filter` entry. -/
structure IncludeFilter where
  op : Option String
  property : Option String
  value : Option String
deriving Repr, DecidableEq

/-- A `compose.include` entry. -/
structure VSInclude where
  system : Option String
  concept : Option (List FConcept)
  filter : Option (List IncludeFilter)
  valueSet : Option (List String)
deriving Repr, DecidableEq

/-- The `compose` section of a value set.  The field models `compose.include`
(`include` is a Lean keyword, hence the suffix). -/
structure VSCompose where
  includeL : Option (List VSInclude)
deriving Repr, DecidableEq

/-- Parsed `ValueSet` content fields read by the processor. -/
structure ValueSetContent where
  name : Option String
  url : Option String
  description : Option String
  compose : Option VSCompose
  copyright : Option String
deriving Repr, DecidableEq

/-- Parsed `CodeSystem` content fields read by the processor. -/
structure CodeSystemContent where
  name : Option String
  url : Option String
  description : Option String
  caseSensitive : Option Bool
  concept : Option (List FConcept)
  copyright : Option String
deriving Repr, DecidableEq

/-- An element type option (`fhir.ElementDefinitionType`). -/
structure ElementTypeRef where
  code : Option String
  profile : Option String
deriving Repr, DecidableEq

/-- A `binding.valueSetReference`. -/
structure VSRef where
  reference : Option String
deriving Repr, DecidableEq

/-- An element binding. -/
structure ElementBinding where
  strength : Option String
  valueSetReference : Option VSRef
deriving Repr, DecidableEq

/-- A differential element (`fhir.ElementDefinition`), with the fields the
processor reads.  `path` is required by the FHIR schema for every element
the processor visits. -/
structure ElementDefinition where
  path : String
  short : Option String
  definition : Option String
  min : Option Int
  max : Option String
  type : Option (List ElementTypeRef)
  contentReference : Option String
  binding : Option ElementBinding
deriving Repr, DecidableEq

/-- The differential element list of a structure definition. -/
structure FDifferential where
  element : List ElementDefinition
deriving Repr, DecidableEq

/-- Parsed `StructureDefinition` content fields read by the processor. -/
structure StructureDefinitionContent where
  id : Option String
  kind : Option String
  derivation : Option String
  baseDefinition : Option String
  differential : Option FDifferential
  copyright : Option String
deriving Repr, DecidableEq

/-- Parsed document content, tagged by `resourceType`. -/
inductive FileContent where
  | structureDefinition (sd : StructureDefinitionContent)
  | valueSet (vs : ValueSetContent)
  | codeSystem (cs : CodeSystemContent)
  | other (resourceType : String)
deriving Repr, DecidableEq

/-- The `resourceType` discriminator of parsed content. -/
def FileContent.resourceType : FileContent → String
  | .structureDefinition _ => "StructureDefinition"
  | .valueSet _ => "ValueSet"
  | .codeSystem _ => "CodeSystem"
  | .other rt => rt

/-- The `copyright` field of parsed content (read by
`isApparentExampleValueSet`). -/
def FileContent.copyright : FileContent → Option String
  | .structureDefinition sd => sd.copyright
  | .valueSet vs => vs.copyright
  | .codeSystem cs => cs.copyright
  | .other _ => none

/-- The `name` field of parsed content (read by `getEnumName`). -/
def FileContent.contentName : FileContent → Option String
  | .structureDefinition _ => none
  | .valueSet vs => vs.name
  | .codeSystem cs => cs.name
  | .other _ => none

/-- An enum member (`EnumMember` in the declarations).  The `parent`
back-reference declared on the interface is never assigned anywhere in the
source, so the embedding omits the field; `enumMemberIsA`'s ancestor walk
therefore inspects only the member itself. -/
structure EnumMemberV where
  name : Option String
  description : Option String
  value : Option String
  display : Option String
  system : Option String
  caseSensitive : Option Bool
deriving Repr, DecidableEq

/-- `TypeCategory` constants, with the numeric values of the source's
`const enum` (sequential, not bit flags); `getReferencedType` applies a
bitwise AND to them. -/
def catNone : Nat := 0

/-- `TypeCategory.Primitive`. -/
def catPrimitive : Nat := 1

/-- `TypeCategory.DataType`. -/
def catDataType : Nat := 2

/-- `TypeCategory.Resource`. -/
def catResource : Nat := 3

/-- `TypeCategory.SubType`. -/
def catSubType : Nat := 4

/-- `TypeCategory.ValueSet`. -/
def catValueSet : Nat := 5

/-- `TypeCategory.CodeSystem`. -/
def catCodeSystem : Nat := 6

/-- Value form of a type: a type reference (name plus optional binding, from
`createTypeReference`), an array (`createArrayType`), a union
(`createUnionType`), or a pointer to a mutable heap node (interface, enum or
primitive object). -/
inductive TypeExpr where
  | ref (name : Option String) (binding : Option String)
  | arr (elementType : TypeExpr)
  | union (types : List TypeExpr)
  | node (idx : Nat)
deriving Repr

/-- A property of an object/interface type. -/
structure PropertyV where
  name : String
  description : Option String
  type : TypeExpr
  optional : Bool
deriving Repr

/-- A mutable heap node: an interface type (`createInterfaceType`), an enum
type (value set / code system), or a primitive type
(`createPrimitiveType`). -/
inductive TypeNodeV where
  | interfaceNode (name : String) (category : Nat) (description : Option String)
      (baseType : Option String) (properties : List PropertyV)
  | enumNode (name : String) (category : Nat) (description : Option String)
      (members : List EnumMemberV)
  | primitiveNode (name : Option String) (category : Nat) (description : Option String)
      (intrinsicType : Option String)
deriving Repr

/-- The `name` of a heap node, as JavaScript reads `.name` (absent on an
unnamed primitive). -/
def TypeNodeV.nameO : TypeNodeV → Option String
  | .interfaceNode n _ _ _ _ => some n
  | .enumNode n _ _ _ => some n
  | .primitiveNode n _ _ _ => n

/-- The `category` of a heap node. -/
def TypeNodeV.cat : TypeNodeV → Nat
  | .interfaceNode _ c _ _ _ => c
  | .enumNode _ c _ _ => c
  | .primitiveNode _ c _ _ => c

/-- The `baseType` of a heap node (`undefined` on non-interface nodes). -/
def TypeNodeV.baseTypeO : TypeNodeV → Option String
  | .interfaceNode _ _ _ bt _ => bt
  | _ => none

/-- The `properties` of a heap node, `[]` when JavaScript would read
`undefined` (the callers guard on object kinds first). -/
def TypeNodeV.props : TypeNodeV → List PropertyV
  | .interfaceNode _ _ _ _ ps => ps
  | _ => []

/-- The `members` of a heap node, `[]` on non-enum nodes. -/
def TypeNodeV.members : TypeNodeV → List EnumMemberV
  | .enumNode _ _ _ ms => ms
  | _ => []

/-- Whether a heap node satisfies `kind & TypeKind.ObjectTypes`
(`InterfaceType = 4`, `ObjectType = 2`; only interfaces are ever built). -/
def TypeNodeV.isObject : TypeNodeV → Bool
  | .interfaceNode _ _ _ _ _ => true
  | _ => false

/-- A document record (`SpecificationFile`): identifier, filename, visit
flags, optional display symbol, parsed content, resolved type (heap
index). -/
structure SpecificationFile where
  id : String
  filename : String
  queued : Bool
  processed : Bool
  referenced : Bool
  symbol : Option String
  content : Option FileContent
  type : Option Nat
deriving Repr

/-- The whole mutable closure state of `processFiles`: the insertion-ordered
files map, the node heap, `typesByName`, `result.types`, `result.errors`,
and the `currentFile` cursor (its filename). -/
structure PState where
  files : List (String × SpecificationFile)
  heap : List TypeNodeV
  typesByName : List (String × Nat)
  resultTypes : List Nat
  errors : List String
  currentFile : Option String
deriving Repr

/-! ## Pure helper functions of the processor

Direct embeddings of the side-effect-free helpers in `processor.ts`.  The
constant `maxNameLength = 56` is inlined where the source reads it.
-/

/-- Embeds `formatName`: pascal-case the text and prepend an underscore if
the result starts with a digit. -/
def formatName (name : String) : String :=
  let n := pascalCase name
  if startsWithNumber n then "_" ++ n else n

/-- Embeds `getMappedName`: the fixed symbol-to-word map for the five
comparison-operator codes; every other code (including an absent one) maps
to `null`. -/
def getMappedName (_system : Option String) (code : Option String) : Option String :=
  match code with
  | some "=" => some "Equals"
  | some "<" => some "LessThan"
  | some "<=" => some "LessThanOrEqual"
  | some ">" => some "GreaterThan"
  | some ">=" => some "GreaterThanOrEqual"
  | _ => none

/-- Embeds `getExtension`: first extension entry with the given url. -/
def getExtension (ext : Option (List FExtension)) (url : String) : Option FExtension :=
  match ext with
  | none => none
  | some items => items.find? (fun item => item.url == url)

/-- Embeds `getExtensionValueString`. -/
def getExtensionValueString (ext : Option (List FExtension)) (url : String) : Option String :=
  match getExtension ext url with
  | some e => e.valueString
  | none => none

/-- Embeds `getEnumMemberDescription`: the explicit definition, else the
value of the `valueset-definition` extension, else a display text containing
a space, else `undefined`. -/
def getEnumMemberDescription (concept : FConcept) : Option String :=
  if truthyS concept.definition then concept.definition
  else
    let definitionExtension := getExtensionValueString concept.extension
      "http://hl7.org/fhir/StructureDefinition/valueset-definition"
    if truthyS definitionExtension then definitionExtension
    else
      match concept.display with
      | some d => if substrContains d " " then some d else none
      | none => none

/-- Embeds the name-candidate cascade of `getEnumMemberName` (the
`addError` on a failed derivation is raised by the interpreter wrapper):
mapped operator word, else short display (with the first `*` replaced by
`Star`), else non-digit-led code, else short trimmed description, else the
raw code; the winning candidate is passed through `formatName`. -/
def getEnumMemberNameCore (system : Option String) (concept : FConcept) : Option String :=
  let mapped := getMappedName system concept.code
  let name : Option String :=
    if truthyS mapped then mapped
    else
      let display := concept.display.map trimStr
      if truthyS display && (display.getD "").length < 56 then
        concept.display.map (fun n => replaceFirst n "*" "Star")
      else
        let code := concept.code
        if truthyS code && !startsWithNumber (code.getD "") then code
        else
          let description := (getEnumMemberDescription concept).map trimStr
          if truthyS description && (description.getD "").length < 56 then description
          else code
  if !truthyS name then none
  else name.map formatName

/-- Embeds `getAlternateName`: the code value when it does not start with a
digit, else a description shorter than the maximum, formatted; `undefined`
when neither candidate is usable. -/
def getAlternateName (member : EnumMemberV) : Option String :=
  let name : Option String :=
    if truthyS member.value && !startsWithNumber (member.value.getD "") then member.value
    else
      match member.description with
      | some d => if truthyS (some d) && d.length < 56 then some d else none
      | none => none
  if truthyS name then name.map formatName else none

/-- Embeds `getDuplicate`: the first member of the list with the same
name. -/
def getDuplicate (memberToAdd : EnumMemberV) (members : List EnumMemberV) :
    Option EnumMemberV :=
  members.find? (fun currentMember => currentMember.name == memberToAdd.name)

/-- Embeds `areEnumMembersEqual`: fieldwise equality on name, value,
description, display, system and case sensitivity. -/
def areEnumMembersEqual (member1 member2 : EnumMemberV) : Bool :=
  member1.name == member2.name && member1.value == member2.value &&
    member1.description == member2.description && member1.display == member2.display &&
    member1.system == member2.system && member1.caseSensitive == member2.caseSensitive

/-- Rename the first member of the list whose name equals `nm` (the member
`getDuplicate` found), modelling the in-place rename of the duplicate. -/
def renameFirstMember (members : List EnumMemberV) (nm : Option String)
    (newName : Option String) : List EnumMemberV :=
  match members with
  | [] => []
  | m :: rest =>
      if m.name == nm then { m with name := newName } :: rest
      else m :: renameFirstMember rest nm newName

/-- The candidate name `originalName + "_" + n` of the numeric-suffix
fallback; JavaScript string concatenation renders a `null` name as
`"null"`. -/
def suffixName (originalName : Option String) (n : Nat) : String :=
  (match originalName with
   | some s => s
   | none => "null") ++ "_" ++ toString n

/-- The numeric-suffix search of `adjustMemberName`: try
`originalName_1`, `originalName_2`, … until no member of the list has that
name.  `k` bounds the search (the source's `do`/`while` loop always
terminates because the candidates are pairwise distinct and the list is
finite); when the bound runs out the last candidate is kept. -/
def suffixSearch (originalName : Option String) (members : List EnumMemberV)
    (n : Nat) (k : Nat) : String :=
  let candidate := suffixName originalName n
  match k with
  | 0 => candidate
  | k + 1 =>
      if (members.find? (fun m => m.name == some candidate)).isSome then
        suffixSearch originalName members (n + 1) k
      else candidate

/-- Embeds `adjustMemberName`.  Returns whether the member should be pushed,
the (possibly renamed) member to push, and the updated existing member list
(an existing duplicate may have been renamed in place).  The steps mirror
the source exactly: accept when no same-named member exists; drop silently
when the duplicate is fieldwise identical; otherwise try the new member's
alternate name, then additionally rename the existing duplicate and retry,
and finally fall back to numeric suffixes on the original name (the rename
of the existing duplicate is kept even when the fallback fires). -/
def adjustMemberName (memberToAdd : EnumMemberV) (members : List EnumMemberV) :
    Bool × EnumMemberV × List EnumMemberV :=
  match getDuplicate memberToAdd members with
  | none => (true, memberToAdd, members)
  | some duplicateMember =>
      if areEnumMembersEqual duplicateMember memberToAdd then
        (false, memberToAdd, members)
      else
        let originalName := memberToAdd.name
        let alternate := getAlternateName memberToAdd
        if truthyS alternate then
          let m1 := { memberToAdd with name := alternate }
          if (getDuplicate m1 members).isNone then (true, m1, members)
          else
            let alternate2 := getAlternateName duplicateMember
            if truthyS alternate2 then
              let members2 := renameFirstMember members duplicateMember.name alternate2
              if (getDuplicate m1 members2).isNone then (true, m1, members2)
              else
                (true,
                  { memberToAdd with
                    name := some (suffixSearch originalName members2 1 (members2.length + 1)) },
                  members2)
            else
              (true,
                { memberToAdd with
                  name := some (suffixSearch originalName members 1 (members.length + 1)) },
                members)
        else
          (true,
            { memberToAdd with
              name := some (suffixSearch originalName members 1 (members.length + 1)) },
            members)

/-- Embeds `enumMemberIsA`: walk the member's ancestor chain comparing
values; the `parent` back-reference is never populated by the source, so the
walk inspects only the member itself. -/
def enumMemberIsA (member : EnumMemberV) (code : Option String) : Bool :=
  member.value == code

/-- Embeds `getNameFromSystemUrl`: format the last `/`-separated segment. -/
def getNameFromSystemUrl (url : String) : String :=
  let parts := splitStr url '/'
  formatName (parts.getLastD "")

/-- Embeds `getEnumName`: the content's name unless absent or containing a
space, else the file's assigned symbol, else the formatted last segment of
the file identifier. -/
def getEnumName (file : SpecificationFile) : String :=
  let contentName := match file.content with
    | some c => c.contentName
    | none => none
  let name := if !truthyS contentName ||
      substrContains (contentName.getD "") " " then file.symbol
    else contentName
  if !truthyS name then getNameFromSystemUrl file.id
  else formatName (name.getD "")

/-- Embeds `getIntrinsicType`: the fixed whitelist from primitive-type
identifier to intrinsic representation. -/
def getIntrinsicType (primitiveType : String) : Option String :=
  match primitiveType with
  | "instant" => some "string"
  | "time" => some "string"
  | "date" => some "string"
  | "dateTime" => some "string"
  | "decimal" => some "number"
  | "boolean" => some "boolean"
  | "integer" => some "number"
  | "base64Binary" => some "string"
  | "string" => some "string"
  | "uri" => some "string"
  | "unsignedInt" => some "number"
  | "positiveInt" => some "number"
  | "code" => some "string"
  | "id" => some "string"
  | "oid" => some "string"
  | "markdown" => some "string"
  | _ => none

/-- Embeds `combinePropertyNameWithType`: replace (the first occurrence of)
`[x]` with the pascal-cased type name. -/
def combinePropertyNameWithType (propertyName typeName : String) : String :=
  replaceFirst propertyName "[x]" (pascalCase typeName)

/-- Embeds `getPropertyName`: the last `.`-separated segment of a truthy
path. -/
def getPropertyName (path : String) : Option String :=
  if !truthyS (some path) then none
  else
    let parts := splitStr path '.'
    some (parts.getLastD "")

/-- Embeds `isExampleBinding`. -/
def isExampleBinding (binding : ElementBinding) : Bool :=
  binding.strength == some "example"

/-- Embeds the module-level `openTypeElement` constant: the fixed ordered
open-type option list. -/
def openTypeElement : List ElementTypeRef :=
  [⟨some "integer", none⟩, ⟨some "decimal", none⟩, ⟨some "dateTime", none⟩,
   ⟨some "date", none⟩, ⟨some "instant", none⟩, ⟨some "time", none⟩,
   ⟨some "string", none⟩, ⟨some "uri", none⟩, ⟨some "boolean", none⟩,
   ⟨some "code", none⟩, ⟨some "base64Binary", none⟩, ⟨some "Coding", none⟩,
   ⟨some "CodeableConcept", none⟩, ⟨some "Attachment", none⟩,
   ⟨some "Identifier", none⟩, ⟨some "Quantity", none⟩, ⟨some "Range", none⟩,
   ⟨some "Period", none⟩, ⟨some "Ratio", none⟩, ⟨some "HumanName", none⟩,
   ⟨some "Address", none⟩, ⟨some "ContactPoint", none⟩, ⟨some "Timing", none⟩,
   ⟨some "Signature", none⟩, ⟨some "Reference", none⟩]

/-- The name of a type reference expression (`typeReference.name`); only
`TypeExpr.ref` values reach the comparison sites that use it. -/
def TypeExpr.refName : TypeExpr → Option String
  | .ref n _ => n
  | _ => none

/-- One step of the polymorphic-property loop of `processTypeDefinition`:
merge a repeated reference into the last appended property (pushing into an
existing union or forming a fresh two-element union), mirroring the in-place
mutation of `lastProperty.type`. -/
def polyMerge (acc : List PropertyV) (r : TypeExpr) : List PropertyV :=
  match acc.reverse with
  | [] => acc
  | lastProperty :: revRest =>
      let merged :=
        match lastProperty.type with
        | .union ts => { lastProperty with type := .union (ts ++ [r]) }
        | t => { lastProperty with type := .union [t, r] }
      (merged :: revRest).reverse

/-- The loop body of the `[x]` expansion in `processTypeDefinition`:
`lastName` tracks `lastTypeReferenceName` (initially the empty string, which
never matches a truthy type name; modelled as `none`), `acc` the properties
appended so far to the containing type. -/
def polyFold (propertyName : String) (short : Option String)
    (acc : List PropertyV) (lastName : Option String)
    (refs : List TypeExpr) : List PropertyV :=
  match refs with
  | [] => acc
  | typeReference :: rest =>
      if typeReference.refName == lastName && lastName.isSome then
        polyFold propertyName short (polyMerge acc typeReference) lastName rest
      else
        let prop : PropertyV :=
          { name := combinePropertyNameWithType propertyName
              ((typeReference.refName).getD ""),
            description := short,
            type := typeReference,
            optional := true }
        polyFold propertyName short (acc ++ [prop]) typeReference.refName rest

/-- The properties contributed by one polymorphic element: the loop starting
from no previous property. -/
def polyProperties (propertyName : String) (short : Option String)
    (refs : List TypeExpr) : List PropertyV :=
  polyFold propertyName short [] none refs

/-- Embeds the URL normalization inside `getValueSetFile`: the one
historical bad URL is rewritten to its canonical counterpart. -/
def rewriteValueSetUrl (url : String) : String :=
  if url == "http://build.fhir.org/valueset-request-intent.html" then
    "http://hl7.org/fhir/ValueSet/request-intent"
  else url

/-- Embeds the retry URL of `getValueSetFile`: insert a `vs` segment before
the last `/`-separated segment. -/
def vsRetryUrl (url : String) : String :=
  let parts := splitStr url '/'
  joinStr (parts.take (parts.length - 1) ++ ["vs"] ++ parts.drop (parts.length - 1)) '/'

/-- Render an optional string the way `util.format("%s", x)` renders
`undefined`. -/
def fmtOpt (s : Option String) : String :=
  match s with
  | some t => t
  | none => "undefined"

/-! ## State primitives

Association-list operations over the files map, heap, registry, error list
and output list.  All mutation of the interpreter goes through these.
-/

/-- Lookup of a document record by map key (`files[k]`). -/
def lookupFile (s : PState) (k : String) : Option SpecificationFile :=
  (s.files.find? (fun p => p.1 == k)).map Prod.snd

/-- Lookup in the type registry (`typesByName[name]`). -/
def lookupReg (s : PState) (name : String) : Option Nat :=
  (s.typesByName.find? (fun p => p.1 == name)).map Prod.snd

/-- Update the first entry of an association list with the given key. -/
def updAssoc (l : List (String × SpecificationFile)) (k : String)
    (f : SpecificationFile → SpecificationFile) : List (String × SpecificationFile) :=
  match l with
  | [] => []
  | p :: rest =>
      if p.1 == k then (p.1, f p.2) :: rest
      else p :: updAssoc rest k f

/-- Update a document record in place. -/
def updFile (s : PState) (k : String) (f : SpecificationFile → SpecificationFile) : PState :=
  { s with files := updAssoc s.files k f }

/-- Update a list element in place by index. -/
def updAt {α : Type} (l : List α) (i : Nat) (f : α → α) : List α :=
  match l, i with
  | [], _ => []
  | x :: rest, 0 => f x :: rest
  | x :: rest, i + 1 => x :: updAt rest i f

/-- Update a heap node in place. -/
def updNode (s : PState) (idx : Nat) (f : TypeNodeV → TypeNodeV) : PState :=
  { s with heap := updAt s.heap idx f }

/-- Read a heap node (`none` is unreachable for indices the interpreter
produces). -/
def getNode (s : PState) (idx : Nat) : Option TypeNodeV :=
  s.heap.get? idx

/-- Allocate a fresh heap node, returning its index. -/
def allocNode (s : PState) (node : TypeNodeV) : PState × Nat :=
  ({ s with heap := s.heap ++ [node] }, s.heap.length)

/-- The filename attribution of `addError`: prefix the message with the
current file's name when a document is being processed. -/
def formatError (currentFile : Option String) (msg : String) : String :=
  match currentFile with
  | some fn => fn ++ ": " ++ msg
  | none => msg

/-- Embeds `addError`: format the message, attribute it to the current
document, and push it. -/
def addError (s : PState) (msg : String) : PState :=
  { s with errors := s.errors ++ [formatError s.currentFile msg] }

/-- Set the `currentFile` cursor. -/
def setCurrent (s : PState) (c : Option String) : PState :=
  { s with currentFile := c }

/-- Embeds `addTypeToResults`: report a duplicate type name (the node
keeps its name and is not entered into the registry), register a fresh name,
and append the node to the ordered output list in either case. -/
def addTypeToResults (s : PState) (idx : Nat) : PState :=
  let nameO := match getNode s idx with
    | some node => node.nameO
    | none => none
  let s1 :=
    if truthyS nameO then
      let nm := nameO.getD ""
      match lookupReg s nm with
      | some _ => addError s ("Duplicate type name '" ++ nm ++ "'.")
      | none => { s with typesByName := s.typesByName ++ [(nm, idx)] }
    else s
  { s1 with resultTypes := s1.resultTypes ++ [idx] }

/-- Embeds `getValueSetFile` as a pure map query: rewrite the one bad URL,
look the URL up directly, and on a miss retry with a `vs` segment inserted
before the last segment.  Returns the map key at which the file was found
(the caller then operates on the record at that key, mirroring the returned
object reference). -/
def getValueSetFile (s : PState) (url : String) : Option String :=
  let url1 := rewriteValueSetUrl url
  match lookupFile s url1 with
  | some _ => some url1
  | none =>
      let retry := vsRetryUrl url1
      match lookupFile s retry with
      | some _ => some retry
      | none => none

/-- Embeds `isResourceDefinition`: parsed content present, resource type
`StructureDefinition`, kind `resource`. -/
def isResourceDefinition (file : SpecificationFile) : Bool :=
  match file.content with
  | some (.structureDefinition sd) => sd.kind == some "resource"
  | _ => false

/-- Embeds `isConstrainedType`: the content declares derivation
`constraint`. -/
def isConstrainedType (file : SpecificationFile) : Bool :=
  match file.content with
  | some (.structureDefinition sd) => sd.derivation == some "constraint"
  | _ => false

/-- Embeds `isPrimitive`: some differential element's short text contains
the marker `Primitive`. -/
def isPrimitive (file : SpecificationFile) : Bool :=
  match file.content with
  | some (.structureDefinition sd) =>
      match sd.differential with
      | some diff =>
          diff.element.any (fun element =>
            match element.short with
            | some sh => substrContains sh "Primitive"
            | none => false)
      | none => false
  | _ => false

/-- Embeds `isApparentExampleValueSet`. -/
def isApparentExampleValueSet (file : SpecificationFile) : Bool :=
  match file.content with
  | some c => c.copyright == some "This is an example set"
  | none => false

/-- Embeds `getResourceNameFromProfile`: strip the canonical
structure-definition base from the profile URI (the source checks substring
containment, not a prefix), reporting unrecognized URIs as errors. -/
def getResourceNameFromProfile (s : PState) (profile : String) : PState × Option String :=
  let base := "http://hl7.org/fhir/StructureDefinition/"
  if !substrContains profile base then
    (addError s ("Unrecognized profile uri: '" ++ profile ++ "'."), none)
  else (s, some (strDropChars profile base.length))

/-- Embeds `processConcepts`: build one member per concept, deriving name
(an underivable name is reported and left `null`), description, value,
system, case sensitivity and trimmed display. -/
def processConcepts (s : PState) (concepts : Option (List FConcept))
    (caseSensitive : Option Bool) (system : Option String) :
    PState × List EnumMemberV :=
  match concepts with
  | none => (s, [])
  | some cs =>
      cs.foldl
        (fun acc concept =>
          let s0 := acc.1
          let nameO := getEnumMemberNameCore system concept
          let s1 := if nameO.isNone then
              addError s0 "Unable to determine name for value set concept."
            else s0
          let display := concept.display.map trimStr
          let member : EnumMemberV :=
            { name := nameO,
              description := getEnumMemberDescription concept,
              value := concept.code,
              display := if truthyS display then display else none,
              system := system,
              caseSensitive := caseSensitive }
          (s1, acc.2 ++ [member]))
        (s, [])

/-- Embeds `combine` from `processValueSet`: fold the incoming members into
the enum node's member list through `adjustMemberName`, pushing accepted
members. -/
def combineMembers (s : PState) (tIdx : Nat) (incoming : List EnumMemberV) : PState :=
  incoming.foldl
    (fun s0 member =>
      let current := match getNode s0 tIdx with
        | some node => node.members
        | none => []
      let step := adjustMemberName member current
      let updated := if step.1 then step.2.2 ++ [step.2.1] else step.2.2
      updNode s0 tIdx (fun node =>
        match node with
        | .enumNode n c d _ => .enumNode n c d updated
        | other => other))
    s

/-- Embeds `processCodeSystem`: build the enum node from the flat concept
list and record it as the file's type. -/
def processCodeSystem (s : PState) (fid : String) : PState :=
  match lookupFile s fid with
  | none => s
  | some file =>
      match file.content with
      | some (.codeSystem content) =>
          let name := getEnumName file
          let res := processConcepts s content.concept content.caseSensitive content.url
          let alloc := allocNode res.1
            (.enumNode name catCodeSystem content.description res.2)
          updFile alloc.1 fid (fun f => { f with type := some alloc.2 })
      | _ => s

/-- Embeds `processPrimitive`: take the description from the element whose
path equals the content id, map the id through the intrinsic whitelist
(reporting unknown ids), and record the primitive node.  (The checked-in
source redeclares the `intrinsicType` binding; the embedding reads the
single intended binding.) -/
def processPrimitive (s : PState) (fid : String) : PState :=
  match lookupFile s fid with
  | none => s
  | some file =>
      match file.content with
      | some (.structureDefinition content) =>
          let elements := match content.differential with
            | some d => d.element
            | none => []
          let description := elements.foldl
            (fun acc element =>
              if some element.path == content.id then element.definition else acc)
            none
          let intrinsicType := match content.id with
            | some i => getIntrinsicType i
            | none => none
          let s1 := if intrinsicType.isNone then
              addError s ("Unknown primitive type '" ++ fmtOpt content.id ++ "'.")
            else s
          let alloc := allocNode s1
            (.primitiveNode content.id catPrimitive description intrinsicType)
          updFile alloc.1 fid (fun f => { f with type := some alloc.2 })
      | _ => s

/-- Embeds `createSubType`: allocate a named interface node deriving from
the given base, register it immediately, and hand back a reference to it. -/
def createSubType (s : PState) (element : ElementDefinition) (baseType : String) :
    PState × TypeExpr :=
  let subTypeName := pascalCase element.path
  let alloc := allocNode s
    (.interfaceNode subTypeName catSubType element.short (some baseType) [])
  let s1 := addTypeToResults alloc.1 alloc.2
  (s1, .ref (some subTypeName) none)

/-- Embeds `getPropertyForType` and `getProperty`: first property with the
given name. -/
def getPropertyForType (node : TypeNodeV) (propertyName : Option String) :
    Option PropertyV :=
  node.props.find? (fun p => some p.name == propertyName)

/-- Unwrap array nodes, modelling the `while` loop of
`getReferencedType`. -/
def unwrapArrays : TypeExpr → TypeExpr
  | .arr elementType => unwrapArrays elementType
  | t => t

/-- Whether a type expression satisfies `kind & TypeKind.ObjectTypes` in the
given state (a heap pointer to an interface node). -/
def isObjectExpr (s : PState) (t : TypeExpr) : Bool :=
  match t with
  | .node idx =>
      match getNode s idx with
      | some node => node.isObject
      | none => false
  | _ => false

/-- The heap index of a node expression (callers guard on
`isObjectExpr`). -/
def nodeIdxOf : TypeExpr → Nat
  | .node idx => idx
  | _ => 0

/-- The displayed name of a heap node, as error messages render
`type.name`. -/
def nodeNameFmt (s : PState) (idx : Nat) : String :=
  match getNode s idx with
  | some node => fmtOpt node.nameO
  | none => "undefined"

/-! ## The interpreter

The mutually recursive functions of `processFiles` become one fuel-indexed
interpreter over a call descriptor.  Every cross-call runs at one unit less
fuel; exhausted fuel returns the state unchanged (the source would instead
keep running, and can in fact diverge on adversarial inputs, e.g. a
`baseType` name cycle inside `hasBaseInterface`, so no uniform fuel is
faithful for all inputs; all concrete runs below use ample fuel).
-/

/-- Heterogeneous return value of an interpreter call. -/
inductive Ret where
  | unit
  | bool (b : Bool)
  | members (ms : List EnumMemberV)
  | optIdx (i : Option Nat)
  | optExpr (t : Option TypeExpr)
  | optExprs (ts : Option (List TypeExpr))
  | optStr (st : Option String)
  | search (t : Option TypeExpr) (checked : List Nat)

/-- Boolean projection of a return value. -/
def retBool : Ret → Bool
  | .bool b => b
  | _ => false

/-- Member-list projection of a return value. -/
def retMembers : Ret → List EnumMemberV
  | .members ms => ms
  | _ => []

/-- Heap-index projection of a return value. -/
def retOptIdx : Ret → Option Nat
  | .optIdx i => i
  | _ => none

/-- Type-expression projection of a return value. -/
def retOptExpr : Ret → Option TypeExpr
  | .optExpr t => t
  | _ => none

/-- Type-expression-list projection of a return value. -/
def retOptExprs : Ret → Option (List TypeExpr)
  | .optExprs ts => ts
  | _ => none

/-- String projection of a return value. -/
def retOptStr : Ret → Option String
  | .optStr st => st
  | _ => none

/-- Search projection of a return value (result and updated visited set). -/
def retSearch : Ret → Option TypeExpr × List Nat
  | .search t checked => (t, checked)
  | _ => (none, [])

/-- The `.name` JavaScript would read off a resolved type value
(`createTypeReference(elementType.name)` in the content-reference path). -/
def exprNameO (s : PState) : TypeExpr → Option String
  | .node idx =>
      match getNode s idx with
      | some node => node.nameO
      | none => none
  | .ref n _ => n
  | _ => none

/-- Whether a resolved type value is an interface node
(`elementType.kind !== TypeKind.InterfaceType` check). -/
def isInterfaceExpr (s : PState) (t : TypeExpr) : Bool :=
  match t with
  | .node idx =>
      match getNode s idx with
      | some (.interfaceNode _ _ _ _ _) => true
      | _ => false
  | _ => false

/-- Cardinality wrapping: any `max` other than `"1"` produces an array
node. -/
def wrapMax (element : ElementDefinition) (t : TypeExpr) : TypeExpr :=
  if element.max != some "1" then .arr t else t

/-- Assign `type.description` on a heap node. -/
def setNodeDescription (d : Option String) : TypeNodeV → TypeNodeV
  | .interfaceNode n c _ bt ps => .interfaceNode n c d bt ps
  | .enumNode n c _ ms => .enumNode n c d ms
  | .primitiveNode n c _ it => .primitiveNode n c d it

/-- Assign `type.baseType` on an interface node. -/
def setNodeBaseType (bt : Option String) : TypeNodeV → TypeNodeV
  | .interfaceNode n c d _ ps => .interfaceNode n c d bt ps
  | other => other

/-- Append properties to an interface node. -/
def appendProps (newProps : List PropertyV) : TypeNodeV → TypeNodeV
  | .interfaceNode n c d bt ps => .interfaceNode n c d bt (ps ++ newProps)
  | other => other

/-- Replace the member list of an enum node. -/
def setMembers (ms : List EnumMemberV) : TypeNodeV → TypeNodeV
  | .enumNode n c d _ => .enumNode n c d ms
  | other => other

/-- Embeds the two compatibility backfills at the end of
`processTypeDefinition`: prepend `resourceType` to a type named `Resource`
and `fhir_comments` to a type named `Element` when missing. -/
def backfillProps (s : PState) (tIdx : Nat) : PState :=
  let s1 :=
    match getNode s tIdx with
    | some node =>
        if node.nameO == some "Resource" &&
            (getPropertyForType node (some "resourceType")).isNone then
          updNode s tIdx (fun n =>
            match n with
            | .interfaceNode nm c d bt ps =>
                .interfaceNode nm c d bt
                  ({ name := "resourceType",
                     description := some "The type of the resource.",
                     type := .ref (some "code") none, optional := true } :: ps)
            | other => other)
        else s
    | none => s
  match getNode s1 tIdx with
  | some node =>
      if node.nameO == some "Element" &&
          (getPropertyForType node (some "fhir_comments")).isNone then
        updNode s1 tIdx (fun n =>
          match n with
          | .interfaceNode nm c d bt ps =>
              .interfaceNode nm c d bt
                ({ name := "fhir_comments",
                   description := some "Content that would be comments in an XML.",
                   type := .arr (.ref (some "string") none), optional := true } :: ps)
          | other => other)
      else s1
  | none => s1

/-- Call descriptors for the mutually recursive functions of the
processor. -/
inductive Call where
  | seedLoop (keys : List String)
  | referenceFile (fid : String)
  | processFile (fid : String)
  | processValueSet (fid : String)
  | vsIncludes (tIdx : Nat) (incs : List VSInclude)
  | vsIncludeOne (tIdx : Nat) (inc : VSInclude)
  | vsImports (tIdx : Nat) (urls : List String)
  | vsImport (url : String)
  | vsSubstitute (url : String) (ms : List EnumMemberV)
  | vsFilters (url : String) (fs : List IncludeFilter) (ms : List EnumMemberV)
  | vsFilterOne (url : String) (f : IncludeFilter) (ms : List EnumMemberV)
  | sdProcess (fid : String)
  | typeDef (fid : String)
  | typeDefBody (fid : String) (tIdx : Nat)
  | elementsLoop (tIdx : Nat) (els : List ElementDefinition)
  | typeRefs (types : Option (List ElementTypeRef))
  | typeRefsLoop (items : List ElementTypeRef) (acc : List TypeExpr)
  | typeRefProfile (profile : Option String)
  | fileForType (name : String)
  | propTypeForElement (rootIdx : Nat) (el : ElementDefinition)
  | bindingRef (el : ElementDefinition)
  | typeByName (name : Option String)
  | refType (t : Option TypeExpr) (cat : Option Nat)
  | containingForElement (rootIdx : Nat) (el : ElementDefinition)
  | containingForPath (idx : Nat) (parts : List String)
  | hasBase (idx : Nat) (name : String)
  | findFirst (tIdx : Nat) (name : Option String) (checked : List Nat)
  | findFirstLoop (props : List PropertyV) (name : Option String) (checked : List Nat)

/-- The fuel-indexed interpreter.  Each case embeds one source function (or
one loop of a source function); see the `Call` constructor names for the
correspondence. -/
def exec : Nat → Call → PState → PState × Ret
  | 0, _, s => (s, Ret.unit)
  | fuel + 1, call, s =>
    match call with
    | .seedLoop keys =>
        match keys with
        | [] => (s, .unit)
        | k :: rest =>
            let s1 :=
              match lookupFile s k with
              | some file =>
                  if isResourceDefinition file then
                    if isConstrainedType file then s
                    else (exec fuel (.referenceFile k) s).1
                  else s
              | none => s
            exec fuel (.seedLoop rest) s1
    | .referenceFile fid =>
        match lookupFile s fid with
        | none => (s, .unit)
        | some file =>
            if file.referenced then (s, .unit)
            else
              let s1 := updFile s fid (fun f => { f with referenced := true })
              let s2 := (exec fuel (.processFile fid) s1).1
              match lookupFile s2 fid with
              | some f2 =>
                  match f2.type with
                  | some idx => (addTypeToResults s2 idx, .unit)
                  | none => (s2, .unit)
              | none => (s2, .unit)
    | .processFile fid =>
        match lookupFile s fid with
        | none => (s, .unit)
        | some file =>
            if file.processed || file.queued || file.content.isNone then (s, .unit)
            else
              let s1 := updFile s fid (fun f => { f with queued := true })
              let oldFile := s.currentFile
              let s2 := setCurrent s1 (some file.filename)
              let s3 :=
                match file.content with
                | some (.valueSet _) => (exec fuel (.processValueSet fid) s2).1
                | some (.structureDefinition _) => (exec fuel (.sdProcess fid) s2).1
                | some (.codeSystem _) => processCodeSystem s2 fid
                | some (.other rt) =>
                    addError s2 ("Unknown resource type '" ++ rt ++ "'.")
                | none => s2
              let s4 := updFile s3 fid (fun f => { f with processed := true })
              (setCurrent s4 oldFile, .unit)
    | .processValueSet fid =>
        match lookupFile s fid with
        | none => (s, .unit)
        | some file =>
            match file.content with
            | some (.valueSet content) =>
                let name := getEnumName file
                let alloc := allocNode s
                  (.enumNode name catValueSet content.description [])
                let s1 := updFile alloc.1 fid (fun f => { f with type := some alloc.2 })
                match content.compose with
                | some compose =>
                    match compose.includeL with
                    | some includes => exec fuel (.vsIncludes alloc.2 includes) s1
                    | none => (s1, .unit)
                | none => (s1, .unit)
            | _ => (s, .unit)
    | .vsIncludes tIdx incs =>
        match incs with
        | [] => (s, .unit)
        | inc :: rest =>
            let r := exec fuel (.vsIncludeOne tIdx inc) s
            let s1 := combineMembers r.1 tIdx (retMembers r.2)
            exec fuel (.vsIncludes tIdx rest) s1
    | .vsIncludeOne tIdx inc =>
        if truthyS inc.system then
          let pres := processConcepts s inc.concept (some true) inc.system
          let r1 := exec fuel (.vsSubstitute (inc.system.getD "") pres.2) pres.1
          match inc.filter with
          | some filters =>
              exec fuel (.vsFilters (inc.system.getD "") filters (retMembers r1.2)) r1.1
          | none => (r1.1, .members (retMembers r1.2))
        else
          match inc.valueSet with
          | some imports =>
              let s1 := (exec fuel (.vsImports tIdx imports) s).1
              (s1, .members [])
          | none => (s, .members [])
    | .vsImports tIdx urls =>
        match urls with
        | [] => (s, .unit)
        | url :: rest =>
            let r := exec fuel (.vsImport url) s
            let s1 := combineMembers r.1 tIdx (retMembers r.2)
            exec fuel (.vsImports tIdx rest) s1
    | .vsImport url =>
        match getValueSetFile s url with
        | none =>
            (addError s ("Unable to process import statement for '" ++ url ++
              "' because value set with id '" ++ url ++ "' could not be found."),
             .members [])
        | some key =>
            let s1 := (exec fuel (.processFile key) s).1
            match lookupFile s1 key with
            | some f =>
                match f.type with
                | some tIdx =>
                    match getNode s1 tIdx with
                    | some node => (s1, .members node.members)
                    | none => (s1, .members [])
                | none => (s1, .members [])
            | none => (s1, .members [])
    | .vsSubstitute url ms =>
        match getValueSetFile s url with
        | none => (s, .members ms)
        | some key =>
            let s1 := (exec fuel (.processFile key) s).1
            match lookupFile s1 key with
            | some f =>
                match f.type with
                | some tIdx =>
                    let sysMembers :=
                      match getNode s1 tIdx with
                      | some node => node.members
                      | none => []
                    if ms.isEmpty then (s1, .members sysMembers)
                    else
                      (s1, .members (sysMembers.filter (fun member =>
                        ms.any (fun currentMember => currentMember.value == member.value))))
                | none => (s1, .members ms)
            | none => (s1, .members ms)
    | .vsFilters url filters ms =>
        match filters with
        | [] => (s, .members ms)
        | f :: rest =>
            let r := exec fuel (.vsFilterOne url f ms) s
            exec fuel (.vsFilters url rest (retMembers r.2)) r.1
    | .vsFilterOne url filter ms =>
        match getValueSetFile s url with
        | none => (s, .members ms)
        | some key =>
            if filter.op != some "is-a" then
              (addError s ("Do not know how to process filter operation '" ++
                fmtOpt filter.op ++ "'."), .members ms)
            else if filter.property != some "concept" then
              (addError s ("Do not know how to process filter property '" ++
                fmtOpt filter.property ++ "'."), .members ms)
            else
              let s1 := (exec fuel (.processFile key) s).1
              match lookupFile s1 key with
              | some f =>
                  match f.type with
                  | some tIdx =>
                      let sysMembers :=
                        match getNode s1 tIdx with
                        | some node => node.members
                        | none => []
                      (s1, .members (ms ++ sysMembers.filter (fun member =>
                        enumMemberIsA member filter.value)))
                  | none => (s1, .members ms)
              | none => (s1, .members ms)
    | .sdProcess fid =>
        match lookupFile s fid with
        | none => (s, .unit)
        | some file =>
            match file.content with
            | some (.structureDefinition content) =>
                match content.kind with
                | some "resource" => exec fuel (.typeDef fid) s
                | some "constraint" | some "datatype" | some "type"
                | some "complex-type" | some "primitive-type" =>
                    if isPrimitive file then (processPrimitive s fid, .unit)
                    else exec fuel (.typeDef fid) s
                | k => (addError s ("Unknown content kind '" ++ fmtOpt k ++ "'."), .unit)
            | _ => (s, .unit)
    | .typeDef fid =>
        match lookupFile s fid with
        | none => (s, .unit)
        | some file =>
            match file.content with
            | some (.structureDefinition content) =>
                if !truthyS content.id then (s, .unit)
                else
                  let category :=
                    if isResourceDefinition file then catResource else catDataType
                  let alloc := allocNode s
                    (.interfaceNode (content.id.getD "") category none none [])
                  let tIdx := alloc.2
                  let s1 := updFile alloc.1 fid (fun f => { f with type := some tIdx })
                  match content.baseDefinition with
                  | some baseDefinition =>
                      let rp := getResourceNameFromProfile s1 baseDefinition
                      let s2 := updNode rp.1 tIdx (setNodeBaseType rp.2)
                      if truthyS rp.2 then
                        let baseTypeName := rp.2.getD ""
                        match lookupFile s2 baseTypeName with
                        | none =>
                            (addError s2 ("Unknown base type '" ++ baseTypeName ++ "'."),
                             .unit)
                        | some _ =>
                            let s3 := (exec fuel (.referenceFile baseTypeName) s2).1
                            exec fuel (.typeDefBody fid tIdx) s3
                      else exec fuel (.typeDefBody fid tIdx) s2
                  | none => exec fuel (.typeDefBody fid tIdx) s1
            | _ => (s, .unit)
    | .typeDefBody fid tIdx =>
        match lookupFile s fid with
        | none => (s, .unit)
        | some file =>
            match file.content with
            | some (.structureDefinition content) =>
                let elements :=
                  match content.differential with
                  | some d => d.element
                  | none => []
                let r := exec fuel (.elementsLoop tIdx elements) s
                if retBool r.2 then (backfillProps r.1 tIdx, .unit)
                else (r.1, .unit)
            | _ => (s, .unit)
    | .elementsLoop tIdx els =>
        match els with
        | [] => (s, .bool true)
        | element :: rest =>
            if !substrContains element.path "." then
              let s1 := updNode s tIdx (setNodeDescription element.short)
              exec fuel (.elementsLoop tIdx rest) s1
            else
              let pn := getPropertyName element.path
              if !truthyS pn then
                (addError s "Missing property name for element %d.", .bool false)
              else
                let propertyName := pn.getD ""
                let r1 := exec fuel (.containingForElement tIdx element) s
                match retOptIdx r1.2 with
                | none =>
                    (addError r1.1 ("Error getting containing type for property '" ++
                      propertyName ++ "': "), .bool false)
                | some ctIdx =>
                    if propertyName.length > 3 &&
                        strIndexOf propertyName "[x]" == some (propertyName.length - 3) then
                      let r2 := exec fuel (.typeRefs element.type) r1.1
                      match retOptExprs r2.2 with
                      | none =>
                          (addError r2.1 ("No types specified for '" ++ propertyName ++ "'."),
                           .bool false)
                      | some typeReferences =>
                          let s2 := updNode r2.1 ctIdx
                            (appendProps (polyProperties propertyName element.short
                              typeReferences))
                          exec fuel (.elementsLoop tIdx rest) s2
                    else
                      if element.max != some "0" then
                        let r2 := exec fuel (.propTypeForElement tIdx element) r1.1
                        match retOptExpr r2.2 with
                        | none =>
                            (addError r2.1 ("Error getting type for property '" ++
                              propertyName ++ "'."), .bool false)
                        | some propertyType =>
                            let s2 := updNode r2.1 ctIdx (appendProps
                              [{ name := propertyName, description := element.short,
                                 type := propertyType,
                                 optional := element.min == some 0 }])
                            exec fuel (.elementsLoop tIdx rest) s2
                      else exec fuel (.elementsLoop tIdx rest) r1.1
    | .typeRefs types =>
        match types with
        | none => (s, .optExprs none)
        | some typeList => exec fuel (.typeRefsLoop typeList []) s
    | .typeRefsLoop items acc =>
        match items with
        | [] => (s, .optExprs (some acc))
        | typeElement :: rest =>
            if !truthyS typeElement.code then
              (addError s "Missing type name.", .optExprs none)
            else
              let typeName := typeElement.code.getD ""
              if typeName == "*" then
                exec fuel (.typeRefsLoop rest acc) s
              else if typeName == "xhtml" then
                let pr := exec fuel (.typeRefProfile typeElement.profile) s
                exec fuel (.typeRefsLoop rest
                  (acc ++ [TypeExpr.ref (some "string") (retOptStr pr.2)])) pr.1
              else
                let r := exec fuel (.fileForType typeName) s
                if !retBool r.2 then (r.1, .optExprs none)
                else
                  let pr := exec fuel (.typeRefProfile typeElement.profile) r.1
                  exec fuel (.typeRefsLoop rest
                    (acc ++ [TypeExpr.ref (some typeName) (retOptStr pr.2)])) pr.1
    | .typeRefProfile profileO =>
        if !truthyS profileO then (s, .optStr none)
        else
          let rp := getResourceNameFromProfile s (profileO.getD "")
          match rp.2 with
          | some resourceName =>
              if truthyS (some resourceName) then
                let s1 :=
                  if resourceName != "any" then
                    match lookupFile rp.1 resourceName with
                    | none => addError rp.1 ("Unknown profile '" ++ resourceName ++ "'.")
                    | some _ => (exec fuel (.referenceFile resourceName) rp.1).1
                  else rp.1
                (s1, .optStr (some resourceName))
              else (rp.1, .optStr none)
          | none => (rp.1, .optStr none)
    | .fileForType name =>
        match lookupFile s name with
        | none => (addError s ("Unknown type '" ++ name ++ "'."), .bool false)
        | some _ => ((exec fuel (.referenceFile name) s).1, .bool true)
    | .propTypeForElement rootIdx element =>
        if truthyS element.contentReference then
          let cr := element.contentReference.getD ""
          if cr.data.head? != some '#' then
            (addError s ("Expected content reference '" ++ cr ++ "' to start with #."),
             .optExpr none)
          else
            let r1 := exec fuel (.findFirst rootIdx (getPropertyName cr) []) s
            let r2 := exec fuel (.refType (retSearch r1.2).1 none) r1.1
            match retOptExpr r2.2 with
            | none =>
                (addError r2.1 ("Could not resolve content reference '" ++ cr ++ "'."),
                 .optExpr none)
            | some elementType =>
                let s3 :=
                  if !isInterfaceExpr r2.1 elementType then
                    addError r2.1 "Expected content reference to resolve to an interface type."
                  else r2.1
                (s3, .optExpr (some (wrapMax element
                  (TypeExpr.ref (exprNameO s3 elementType) none))))
        else
          let r1 := exec fuel (.typeRefs element.type) s
          let er : PState × Option TypeExpr :=
            match retOptExprs r1.2 with
            | none => (addError r1.1 ("Expected type for " ++ element.path ++ "."), none)
            | some [] => (addError r1.1 ("Expected type for " ++ element.path ++ "."), none)
            | some [tr] =>
                if tr.refName == some "Element" then
                  let cs := createSubType r1.1 element "Element"
                  (cs.1, some cs.2)
                else if tr.refName == some "BackboneElement" then
                  let cs := createSubType r1.1 element "BackboneElement"
                  (cs.1, some cs.2)
                else (r1.1, some tr)
            | some trsAll => (r1.1, some (.union trsAll))
          let wb : PState × Option TypeExpr :=
            match element.binding with
            | some binding =>
                if !isExampleBinding binding then
                  let r2 := exec fuel (.bindingRef element) er.1
                  let bindingReference := retOptStr r2.2
                  if truthyS bindingReference then
                    match er.2 with
                    | some (.ref n _) => (r2.1, some (.ref n bindingReference))
                    | some other => (addError r2.1 "Expected type reference", some other)
                    | none => (r2.1, none)
                  else (r2.1, er.2)
                else (er.1, er.2)
            | none => (er.1, er.2)
          match wb.2 with
          | some t => (wb.1, .optExpr (some (wrapMax element t)))
          | none => (wb.1, .optExpr none)
    | .bindingRef element =>
        match element.binding with
        | none => (addError s element.path, .optStr none)
        | some binding =>
            match binding.valueSetReference with
            | some valueSetReference =>
                if truthyS valueSetReference.reference then
                  let r := valueSetReference.reference.getD ""
                  match getValueSetFile s r with
                  | none =>
                      (addError s ("Unknown binding reference '" ++ r ++ "'."),
                       .optStr none)
                  | some key =>
                      match lookupFile s key with
                      | none => (s, .optStr none)
                      | some bindingTypeFile =>
                          if isApparentExampleValueSet bindingTypeFile then (s, .optStr none)
                          else
                            let s1 :=
                              if !truthyS bindingTypeFile.symbol then
                                updFile s key (fun f =>
                                  { f with symbol := some (pascalCase element.path) })
                              else s
                            let s2 := (exec fuel (.referenceFile key) s1).1
                            match lookupFile s2 key with
                            | some f2 =>
                                match f2.type with
                                | some tIdx =>
                                    match getNode s2 tIdx with
                                    | some node => (s2, .optStr node.nameO)
                                    | none => (s2, .optStr none)
                                | none => (s2, .optStr none)
                            | none => (s2, .optStr none)
                else (s, .optStr none)
            | none => (s, .optStr none)
    | .typeByName nameO =>
        if !truthyS nameO then (s, .optIdx none)
        else
          let name := nameO.getD ""
          match lookupReg s name with
          | some idx => (s, .optIdx (some idx))
          | none =>
              match lookupFile s name with
              | some _ =>
                  let s1 := (exec fuel (.referenceFile name) s).1
                  match lookupFile s1 name with
                  | some f => (s1, .optIdx f.type)
                  | none => (s1, .optIdx none)
              | none => (s, .optIdx none)
    | .refType tO category =>
        match tO with
        | none => (s, .optExpr none)
        | some t0 =>
            match unwrapArrays t0 with
            | .ref name _ =>
                let r := exec fuel (.typeByName name) s
                match retOptIdx r.2 with
                | none =>
                    (addError r.1 ("Could not find type with name '" ++ fmtOpt name ++ "'."),
                     .optExpr none)
                | some idx =>
                    match category with
                    | some c =>
                        let nodeCat :=
                          match getNode r.1 idx with
                          | some node => node.cat
                          | none => 0
                        if Nat.land nodeCat c == 0 then (r.1, .optExpr none)
                        else (r.1, .optExpr (some (.node idx)))
                    | none => (r.1, .optExpr (some (.node idx)))
            | other => (s, .optExpr (some other))
    | .containingForElement rootIdx element =>
        let path := element.path
        if !truthyS (some path) then (s, .optIdx none)
        else
          let parts := splitStr path '.'
          let resourceName := parts.headD ""
          if !truthyS (some resourceName) then (s, .optIdx none)
          else
            let r := exec fuel (.hasBase rootIdx resourceName) s
            if !retBool r.2 then
              (addError r.1 ("Expected '" ++ resourceName ++ "' to be a '" ++
                nodeNameFmt r.1 rootIdx ++ "'."), .optIdx none)
            else exec fuel (.containingForPath rootIdx parts.tail) r.1
    | .containingForPath parentIdx path =>
        match path with
        | [_] => (s, .optIdx (some parentIdx))
        | [] =>
            (addError s ("Could not find property 'undefined' on type '" ++
              nodeNameFmt s parentIdx ++ "'."), .optIdx none)
        | propertyName :: rest =>
            let propO :=
              match getNode s parentIdx with
              | some node => getPropertyForType node (some propertyName)
              | none => none
            match propO with
            | none =>
                (addError s ("Could not find property '" ++ propertyName ++
                  "' on type '" ++ nodeNameFmt s parentIdx ++ "'."), .optIdx none)
            | some property =>
                let r := exec fuel (.refType (some property.type) none) s
                match retOptExpr r.2 with
                | none => (r.1, .optIdx none)
                | some currentType =>
                    if !isObjectExpr r.1 currentType then
                      (addError r.1 ("Expected property '" ++ propertyName ++
                        "' to reference an object type."), .optIdx none)
                    else exec fuel (.containingForPath (nodeIdxOf currentType) rest) r.1
    | .hasBase idx name =>
        let nodeName :=
          match getNode s idx with
          | some node => node.nameO
          | none => none
        if nodeName == some name then (s, .bool true)
        else
          let baseTypeO :=
            match getNode s idx with
            | some node => node.baseTypeO
            | none => none
          let r := exec fuel (.typeByName baseTypeO) s
          match retOptIdx r.2 with
          | some nextIdx => exec fuel (.hasBase nextIdx name) r.1
          | none => (r.1, .bool false)
    | .findFirst tIdx name checked =>
        match getNode s tIdx with
        | some (.interfaceNode _ _ _ _ properties) =>
            if checked.contains tIdx then (s, .search none checked)
            else exec fuel (.findFirstLoop properties name (checked ++ [tIdx])) s
        | _ => (s, .search none checked)
    | .findFirstLoop properties name checked =>
        match properties with
        | [] => (s, .search none checked)
        | property :: rest =>
            if some property.name == name then (s, .search (some property.type) checked)
            else
              let r := exec fuel (.refType (some property.type) (some catSubType)) s
              match retOptExpr r.2 with
              | some propertyType =>
                  if isObjectExpr r.1 propertyType then
                    let r2 := exec fuel
                      (.findFirst (nodeIdxOf propertyType) name checked) r.1
                    match (retSearch r2.2).1 with
                    | some m => (r2.1, .search (some m) (retSearch r2.2).2)
                    | none =>
                        exec fuel (.findFirstLoop rest name (retSearch r2.2).2) r2.1
                  else exec fuel (.findFirstLoop rest name checked) r.1
              | none => exec fuel (.findFirstLoop rest name checked) r.1

/-- The initial closure state of one `processFiles` call over a files
map. -/
def initState (files : List (String × SpecificationFile)) : PState :=
  { files := files, heap := [], typesByName := [], resultTypes := [],
    errors := [], currentFile := none }

/-- Embeds `processFiles`: seed visitation over the map in iteration order
and return the final state (holding `result.types`, `result.errors` and the
mutated files map). -/
def runProcessFiles (fuel : Nat) (files : List (String × SpecificationFile)) : PState :=
  (exec fuel (.seedLoop (files.map Prod.fst)) (initState files)).1

/-! ## Concrete fixtures

Small document maps used by the claim theorems, witnesses and
counterexamples.
-/

/-- A minimal differential element carrying only a path and short text. -/
def mkElement (path : String) (short : Option String) : ElementDefinition :=
  { path := path, short := short, definition := none, min := none, max := none,
    type := none, contentReference := none, binding := none }

/-- A differential element with declared type options and cardinality. -/
def mkTypedElement (path : String) (short : Option String) (codes : List String)
    (mx : String) : ElementDefinition :=
  { path := path, short := short, definition := none, min := some 0, max := some mx,
    type := some (codes.map (fun c => ⟨some c, none⟩)), contentReference := none,
    binding := none }

/-- A structure-definition document content. -/
def mkStructureDef (id : String) (kind : String) (base : Option String)
    (els : List ElementDefinition) : FileContent :=
  FileContent.structureDefinition
    { id := some id, kind := some kind, derivation := none,
      baseDefinition := base, differential := some ⟨els⟩, copyright := none }

/-- A fresh (unvisited) document record as the loader produces it. -/
def mkSpecFile (id fn : String) (c : FileContent) : SpecificationFile :=
  { id := id, filename := fn, queued := false, processed := false,
    referenced := false, symbol := none, content := some c, type := none }

/-- C1 fixture: resource `A` declares an absent base type `Missing`;
resource `B` is unrelated and well-formed. -/
def c1Map : List (String × SpecificationFile) :=
  [("A", mkSpecFile "A" "a.json" (mkStructureDef "A" "resource"
      (some "http://hl7.org/fhir/StructureDefinition/Missing")
      [mkElement "A" (some "A res")])),
   ("B", mkSpecFile "B" "b.json" (mkStructureDef "B" "resource" none
      [mkElement "B" (some "B res")]))]

/-- C2 fixture: two resources whose base-definition profiles reference each
other, forming a cycle. -/
def cycleMap : List (String × SpecificationFile) :=
  [("A", mkSpecFile "A" "a.json" (mkStructureDef "A" "resource"
      (some "http://hl7.org/fhir/StructureDefinition/B")
      [mkElement "A" (some "A res")])),
   ("B", mkSpecFile "B" "b.json" (mkStructureDef "B" "resource"
      (some "http://hl7.org/fhir/StructureDefinition/A")
      [mkElement "B" (some "B res")]))]

/-- A concept with a code and display only. -/
def mkConcept (code disp : String) : FConcept :=
  { code := some code, display := some disp, definition := none, extension := none }

/-- C3 fixture: a value set composed from two includes whose concepts share
the code `active` with displays `Active` and `Active (Other)` (the claim's
exact input; neither coding-system URL resolves to a document). -/
def c3ValueSet : FileContent :=
  FileContent.valueSet
    { name := some "TestVS", url := some "http://x/vs1", description := none,
      compose := some
        { includeL := some
            [{ system := some "http://sysa",
               concept := some [mkConcept "active" "Active"],
               filter := none, valueSet := none },
             { system := some "http://sysb",
               concept := some [mkConcept "active" "Active (Other)"],
               filter := none, valueSet := none }] },
      copyright := none }

/-- The one-document map holding the C3 value set. -/
def c3Map : List (String × SpecificationFile) :=
  [("http://x/vs1", mkSpecFile "http://x/vs1" "vs1.json" c3ValueSet)]

/-- C3 companion fixture: the same composition but with both displays equal
to `Active`, the input that does force the numeric-suffix fallback. -/
def c3ValueSetSame : FileContent :=
  FileContent.valueSet
    { name := some "TestVS", url := some "http://x/vs1", description := none,
      compose := some
        { includeL := some
            [{ system := some "http://sysa",
               concept := some [mkConcept "active" "Active"],
               filter := none, valueSet := none },
             { system := some "http://sysb",
               concept := some [mkConcept "active" "Active"],
               filter := none, valueSet := none }] },
      copyright := none }

/-- The one-document map holding the companion C3 value set. -/
def c3MapSame : List (String × SpecificationFile) :=
  [("http://x/vs1", mkSpecFile "http://x/vs1" "vs1.json" c3ValueSetSame)]

/-- C4 fixture: `Observation.value[x]` with two consecutive `Quantity`
options. -/
def c4MapA : List (String × SpecificationFile) :=
  [("Observation", mkSpecFile "Observation" "observation.json"
      (mkStructureDef "Observation" "resource" none
        [mkElement "Observation" (some "Obs"),
         mkTypedElement "Observation.value[x]" (some "val")
           ["Quantity", "Quantity"] "1"])),
   ("Quantity", mkSpecFile "Quantity" "quantity.json"
      (mkStructureDef "Quantity" "complex-type" none [mkElement "Quantity" none]))]

/-- C4 fixture: `Observation.value[x]` with options `Quantity` then
`string`. -/
def c4MapB : List (String × SpecificationFile) :=
  [("Observation", mkSpecFile "Observation" "observation.json"
      (mkStructureDef "Observation" "resource" none
        [mkElement "Observation" (some "Obs"),
         mkTypedElement "Observation.value[x]" (some "val")
           ["Quantity", "string"] "1"])),
   ("Quantity", mkSpecFile "Quantity" "quantity.json"
      (mkStructureDef "Quantity" "complex-type" none [mkElement "Quantity" none])),
   ("string", mkSpecFile "string" "string.json"
      (mkStructureDef "string" "complex-type" none [mkElement "string" none]))]

/-- C8 fixture: a single well-formed resource document. -/
def c8Map : List (String × SpecificationFile) :=
  [("B", mkSpecFile "B" "b.json" (mkStructureDef "B" "resource" none
      [mkElement "B" (some "B res")]))]

/-- C10 fixture: resource `A` synthesizes a backbone sub-type named `AB`
for its element `A.b`; the later seed resource with id `AB` then collides
with that sub-type at top level, where no document is current. -/
def c10Map : List (String × SpecificationFile) :=
  [("A", mkSpecFile "A" "a.json" (mkStructureDef "A" "resource" none
      [mkElement "A" (some "A res"),
       mkTypedElement "A.b" (some "b prop") ["BackboneElement"] "1"])),
   ("BackboneElement", mkSpecFile "BackboneElement" "bb.json"
      (mkStructureDef "BackboneElement" "complex-type" none
        [mkElement "BackboneElement" none])),
   ("AB", mkSpecFile "AB" "ab.json" (mkStructureDef "AB" "resource" none
      [mkElement "AB" (some "dup")]))]

/-- C9 witness fixture: a one-document state keyed by a `vs`-style URL. -/
def c9State : PState :=
  initState [("http://a/vs/x",
    mkSpecFile "http://a/vs/x" "x.json" (FileContent.other "Foo"))]

/-- C7 fixture: a state holding a single `string` data-type document. -/
def c7State : PState :=
  initState [("string", mkSpecFile "string" "string.json"
    (mkStructureDef "string" "complex-type" none [mkElement "string" none]))]

/-- C5 witness fixture: two nodes named `X` (index 0 registered) and one
named `Y` (unregistered). -/
def c5State : PState :=
  { files := [], heap := [.interfaceNode "X" 3 none none [],
      .interfaceNode "X" 2 none none [], .interfaceNode "Y" 2 none none []],
    typesByName := [("X", 0)], resultTypes := [0], errors := [],
    currentFile := none }

/-- C3 witness fixture: the member contributed by the first include of the
identical-display composition. -/
def c3MemberA : EnumMemberV :=
  { name := some "Active", description := none, value := some "active",
    display := some "Active", system := some "http://sysa",
    caseSensitive := some true }

/-- C3 witness fixture: the colliding member contributed by the second
include. -/
def c3MemberB : EnumMemberV :=
  { name := some "Active", description := none, value := some "active",
    display := some "Active", system := some "http://sysb",
    caseSensitive := some true }

/-- A placeholder document record for total lookups in witnesses. -/
def dummySpecFile : SpecificationFile :=
  mkSpecFile "" "" (FileContent.other "")

/-! ## Run invariants

`PInv s t` says that state `t` is reachable from state `s` without violating
the structural guarantees of the processor: the files map keeps its keys and
order, every document keeps its content, identifier and filename while its
visit flags only move forward, registry entries are never replaced, and the
error and output lists only grow at the end.
-/

/-- Per-document monotonicity: flags only move forward, identity and content
are preserved. -/
def fileLe (f g : SpecificationFile) : Prop :=
  (f.queued = true → g.queued = true) ∧ (f.processed = true → g.processed = true) ∧
    (f.referenced = true → g.referenced = true) ∧ g.content = f.content ∧
    g.filename = f.filename ∧ g.id = f.id

/-- Reachability invariant between two interpreter states. -/
def PInv (s t : PState) : Prop :=
  t.files.map Prod.fst = s.files.map Prod.fst ∧
    (∀ k f, lookupFile s k = some f → ∃ g, lookupFile t k = some g ∧ fileLe f g) ∧
    (∀ nm i, lookupReg s nm = some i → lookupReg t nm = some i) ∧
    (∃ l, t.errors = s.errors ++ l) ∧
    (∃ l, t.resultTypes = s.resultTypes ++ l)

theorem fileLe_refl (f : SpecificationFile) : fileLe f f :=
  ⟨id, id, id, rfl, rfl, rfl⟩

theorem fileLe_trans {f g h : SpecificationFile} (h1 : fileLe f g) (h2 : fileLe g h) :
    fileLe f h :=
  ⟨fun a => h2.1 (h1.1 a), fun a => h2.2.1 (h1.2.1 a), fun a => h2.2.2.1 (h1.2.2.1 a),
   h2.2.2.2.1.trans h1.2.2.2.1, h2.2.2.2.2.1.trans h1.2.2.2.2.1,
   h2.2.2.2.2.2.trans h1.2.2.2.2.2⟩

theorem pinv_refl (s : PState) : PInv s s :=
  ⟨rfl, fun _ f h => ⟨f, h, fileLe_refl f⟩, fun _ _ h => h,
   ⟨[], (List.append_nil _).symm⟩, ⟨[], (List.append_nil _).symm⟩⟩

theorem pinv_trans {s t u : PState} (h1 : PInv s t) (h2 : PInv t u) : PInv s u := by
  obtain ⟨k1, f1, r1, ⟨e1, he1⟩, ⟨t1, ht1⟩⟩ := h1
  obtain ⟨k2, f2, r2, ⟨e2, he2⟩, ⟨t2, ht2⟩⟩ := h2
  refine ⟨k2.trans k1, ?_, fun nm i h => r2 nm i (r1 nm i h), ?_, ?_⟩
  · intro k f h
    obtain ⟨g, hg, hfg⟩ := f1 k f h
    obtain ⟨g2, hg2, hgg2⟩ := f2 k g hg
    exact ⟨g2, hg2, fileLe_trans hfg hgg2⟩
  · exact ⟨e1 ++ e2, by rw [he2, he1, List.append_assoc]⟩
  · exact ⟨t1 ++ t2, by rw [ht2, ht1, List.append_assoc]⟩

/-- `find?` over an appended list: the left part wins. -/
theorem find?_append_some {α : Type} (p : α → Bool) (l1 l2 : List α) (x : α)
    (h : l1.find? p = some x) : (l1 ++ l2).find? p = some x := by
  induction l1 with
  | nil => simp [List.find?] at h
  | cons a rest ih =>
      by_cases hp : p a
      · simp [List.find?, hp] at h ⊢; exact h
      · simp only [List.find?, hp] at h
        simp only [List.cons_append, List.find?, hp]
        exact ih h

/-- Registry preservation when the registry only grows at the end. -/
theorem lookupReg_append {s t : PState} (l : List (String × Nat))
    (h : t.typesByName = s.typesByName ++ l) (nm : String) (i : Nat)
    (hs : lookupReg s nm = some i) : lookupReg t nm = some i := by
  unfold lookupReg at hs ⊢
  rw [h]
  obtain ⟨p, hp, hmap⟩ : ∃ p, s.typesByName.find? (fun q => q.1 == nm) = some p ∧
      p.2 = i := by
    cases hfind : s.typesByName.find? (fun q => q.1 == nm) with
    | none => rw [hfind] at hs; simp at hs
    | some p => rw [hfind] at hs; simp at hs; exact ⟨p, rfl, hs⟩
  rw [find?_append_some _ _ _ _ hp]
  simp [hmap]

/-- `PInv` holds whenever the files map is untouched and the registry, error
and output lists only grow at the end. -/
theorem pinv_of_append {s t : PState} (hf : t.files = s.files)
    (hr : ∃ l, t.typesByName = s.typesByName ++ l)
    (he : ∃ l, t.errors = s.errors ++ l)
    (ht : ∃ l, t.resultTypes = s.resultTypes ++ l) : PInv s t := by
  obtain ⟨lr, hlr⟩ := hr
  refine ⟨by rw [hf], ?_, fun nm i h => lookupReg_append lr hlr nm i h, he, ht⟩
  intro k f h
  refine ⟨f, ?_, fileLe_refl f⟩
  unfold lookupFile at h ⊢
  rw [hf]; exact h

/-- `PInv` for state transformers that keep files and registry unchanged. -/
theorem pinv_of_eqs {s t : PState} (hf : t.files = s.files)
    (hr : t.typesByName = s.typesByName)
    (he : ∃ l, t.errors = s.errors ++ l)
    (ht : ∃ l, t.resultTypes = s.resultTypes ++ l) : PInv s t :=
  pinv_of_append hf ⟨[], by rw [hr, List.append_nil]⟩ he ht

theorem pinv_addError (s : PState) (m : String) : PInv s (addError s m) :=
  pinv_of_eqs rfl rfl ⟨[formatError s.currentFile m], rfl⟩ ⟨[], (List.append_nil _).symm⟩

theorem pinv_setCurrent (s : PState) (c : Option String) : PInv s (setCurrent s c) :=
  pinv_of_eqs rfl rfl ⟨[], (List.append_nil _).symm⟩ ⟨[], (List.append_nil _).symm⟩

theorem pinv_allocNode (s : PState) (n : TypeNodeV) : PInv s (allocNode s n).1 :=
  pinv_of_eqs rfl rfl ⟨[], (List.append_nil _).symm⟩ ⟨[], (List.append_nil _).symm⟩

theorem pinv_updNode (s : PState) (i : Nat) (f : TypeNodeV → TypeNodeV) :
    PInv s (updNode s i f) :=
  pinv_of_eqs rfl rfl ⟨[], (List.append_nil _).symm⟩ ⟨[], (List.append_nil _).symm⟩

theorem addError_files (s : PState) (m : String) : (addError s m).files = s.files := by
  rfl

theorem addError_typesByName (s : PState) (m : String) :
    (addError s m).typesByName = s.typesByName := by
  rfl

theorem addError_resultTypes (s : PState) (m : String) :
    (addError s m).resultTypes = s.resultTypes := by
  rfl

theorem addError_errors (s : PState) (m : String) :
    ∃ l, (addError s m).errors = s.errors ++ l :=
  ⟨[formatError s.currentFile m], rfl⟩

theorem pinv_addTypeToResults (s : PState) (idx : Nat) :
    PInv s (addTypeToResults s idx) := by
  unfold addTypeToResults
  dsimp only
  split
  · split
    · refine pinv_of_append ?_ ?_ ?_ ?_ <;>
        cases hc : s.currentFile <;> simp [addError, hc]
    · exact pinv_of_append rfl ⟨[_], rfl⟩ ⟨[], (List.append_nil _).symm⟩ ⟨[idx], rfl⟩
  · exact pinv_of_eqs rfl rfl ⟨[], (List.append_nil _).symm⟩ ⟨[idx], rfl⟩

theorem updAssoc_map_fst (l : List (String × SpecificationFile)) (k : String)
    (h : SpecificationFile → SpecificationFile) :
    (updAssoc l k h).map Prod.fst = l.map Prod.fst := by
  induction l with
  | nil => rfl
  | cons p rest ih =>
      unfold updAssoc
      split <;> simp [ih]

theorem find?_updAssoc (l : List (String × SpecificationFile)) (k j : String)
    (h : SpecificationFile → SpecificationFile) :
    ((updAssoc l k h).find? (fun p => p.1 == j)).map Prod.snd =
      if j = k then ((l.find? (fun p => p.1 == k)).map Prod.snd).map h
      else (l.find? (fun p => p.1 == j)).map Prod.snd := by
  induction l with
  | nil =>
      simp only [updAssoc, List.find?]
      split <;> rfl
  | cons p rest ih =>
      unfold updAssoc
      by_cases hpk : p.1 = k
      · simp only [hpk, beq_self_eq_true, if_true]
        by_cases hjk : j = k
        · subst hjk
          simp [List.find?, hpk]
        · have hpj : (p.1 == j) = false := by
            simp [hpk]; exact fun a => hjk a.symm
          have hkj : (k == j) = false := by
            simp; exact fun a => hjk a.symm
          simp [List.find?, hpj, hjk, hkj]
      · have hpk2 : (p.1 == k) = false := by simp [hpk]
        simp only [hpk2, Bool.false_eq_true, if_false]
        by_cases hpj : p.1 = j
        · have hjk : ¬ j = k := by rw [← hpj]; exact hpk
          simp [List.find?, hpj, hjk]
        · have hpj2 : (p.1 == j) = false := by simp [hpj]
          simp only [List.find?, hpj2, hpk2]
          rw [ih]
  
theorem lookupFile_updFile (s : PState) (k j : String)
    (h : SpecificationFile → SpecificationFile) :
    lookupFile (updFile s k h) j =
      if j = k then (lookupFile s k).map h else lookupFile s j := by
  unfold lookupFile updFile
  exact find?_updAssoc s.files k j h

theorem pinv_updFile (s : PState) (k : String)
    (h : SpecificationFile → SpecificationFile)
    (hm : ∀ f, fileLe f (h f)) : PInv s (updFile s k h) := by
  refine ⟨?_, ?_, fun nm i hr => hr, ⟨[], (List.append_nil _).symm⟩,
    ⟨[], (List.append_nil _).symm⟩⟩
  · exact updAssoc_map_fst s.files k h
  · intro j f hf
    rw [lookupFile_updFile]
    by_cases hjk : j = k
    · subst hjk
      rw [if_pos rfl, hf]
      exact ⟨h f, rfl, hm f⟩
    · rw [if_neg hjk]
      exact ⟨f, hf, fileLe_refl f⟩

theorem fileLe_setReferenced (f : SpecificationFile) :
    fileLe f { f with referenced := true } :=
  ⟨id, id, fun _ => rfl, rfl, rfl, rfl⟩

theorem fileLe_setQueued (f : SpecificationFile) :
    fileLe f { f with queued := true } :=
  ⟨fun _ => rfl, id, id, rfl, rfl, rfl⟩

theorem fileLe_setProcessed (f : SpecificationFile) :
    fileLe f { f with processed := true } :=
  ⟨id, fun _ => rfl, id, rfl, rfl, rfl⟩

theorem fileLe_setType (f : SpecificationFile) (t : Option Nat) :
    fileLe f { f with type := t } :=
  ⟨id, id, id, rfl, rfl, rfl⟩

theorem fileLe_setSymbol (f : SpecificationFile) (sym : Option String) :
    fileLe f { f with symbol := sym } :=
  ⟨id, id, id, rfl, rfl, rfl⟩

theorem pinv_combineMembers (s : PState) (tIdx : Nat) (ms : List EnumMemberV) :
    PInv s (combineMembers s tIdx ms) := by
  unfold combineMembers
  induction ms generalizing s with
  | nil => exact pinv_refl s
  | cons m rest ih =>
      rw [List.foldl_cons]
      exact pinv_trans (pinv_updNode s tIdx _) (ih _)

theorem pinv_processConcepts_fold (cs : List FConcept) (sys : Option String)
    (caseS : Option Bool) :
    ∀ p : PState × List EnumMemberV,
      PInv p.1 (cs.foldl
        (fun acc concept =>
          let s0 := acc.1
          let nameO := getEnumMemberNameCore sys concept
          let s1 := if nameO.isNone then
              addError s0 "Unable to determine name for value set concept."
            else s0
          let display := concept.display.map trimStr
          let member : EnumMemberV :=
            { name := nameO,
              description := getEnumMemberDescription concept,
              value := concept.code,
              display := if truthyS display then display else none,
              system := sys,
              caseSensitive := caseS }
          (s1, acc.2 ++ [member])) p).1 := by
  induction cs with
  | nil => intro p; exact pinv_refl p.1
  | cons c rest ih =>
      intro p
      rw [List.foldl_cons]
      refine pinv_trans ?_ (ih _)
      dsimp only
      split
      · exact pinv_addError p.1 _
      · exact pinv_refl p.1

theorem pinv_processConcepts (s : PState) (cs : Option (List FConcept))
    (caseS : Option Bool) (sys : Option String) :
    PInv s (processConcepts s cs caseS sys).1 := by
  unfold processConcepts
  match cs with
  | none => exact pinv_refl s
  | some l => exact pinv_processConcepts_fold l sys caseS (s, [])

theorem pinv_processCodeSystem (s : PState) (fid : String) :
    PInv s (processCodeSystem s fid) := by
  unfold processCodeSystem
  split
  · exact pinv_refl s
  · split
    · rename_i content _
      dsimp only
      refine pinv_trans ?_ (pinv_updFile _ _ _ (fun f => fileLe_setType f _))
      refine pinv_trans ?_ (pinv_allocNode _ _)
      exact pinv_processConcepts s content.concept content.caseSensitive content.url
    · exact pinv_refl s

theorem pinv_processPrimitive (s : PState) (fid : String) :
    PInv s (processPrimitive s fid) := by
  unfold processPrimitive
  split
  · exact pinv_refl s
  · split
    · dsimp only
      split
      · refine pinv_trans ?_ (pinv_updFile _ _ _ (fun f => fileLe_setType f _))
        refine pinv_trans ?_ (pinv_allocNode _ _)
        exact pinv_addError s _
      · refine pinv_trans ?_ (pinv_updFile _ _ _ (fun f => fileLe_setType f _))
        exact pinv_allocNode _ _
    · exact pinv_refl s

theorem pinv_createSubType (s : PState) (el : ElementDefinition) (bt : String) :
    PInv s (createSubType s el bt).1 := by
  unfold createSubType
  exact pinv_trans (pinv_allocNode _ _) (pinv_addTypeToResults _ _)

theorem pinv_backfillProps (s : PState) (tIdx : Nat) :
    PInv s (backfillProps s tIdx) := by
  unfold backfillProps
  dsimp only
  repeat' split
  all_goals
    first
      | exact pinv_refl _
      | exact pinv_updNode _ _ _
      | exact pinv_trans (pinv_updNode _ _ _) (pinv_updNode _ _ _)
      | exact pinv_trans (pinv_updNode _ _ _) (pinv_refl _)

theorem pinv_getResourceNameFromProfile (s : PState) (p : String) :
    PInv s (getResourceNameFromProfile s p).1 := by
  unfold getResourceNameFromProfile
  dsimp only
  split
  · exact pinv_addError s _
  · exact pinv_refl s


set_option maxHeartbeats 1000000 in
theorem pinv_case_seedLoop (n : Nat) (ih : ∀ c s, PInv s (exec n c s).1)
    (keys : List String) (s : PState) :
    PInv s (exec (n + 1) (.seedLoop keys) s).1 := by
  simp only [exec]
  (try dsimp only) <;> (repeat' split) <;> (try dsimp only) <;>
    (repeat
      first
        | exact pinv_refl _
        | refine pinv_trans ?_ (ih _ _)
        | refine pinv_trans ?_ (pinv_addError _ _))

set_option maxHeartbeats 1000000 in
set_option maxRecDepth 2048 in
theorem pinv_case_referenceFile (n : Nat) (ih : ∀ c s, PInv s (exec n c s).1)
    (fid : String) (s : PState) :
    PInv s (exec (n + 1) (.referenceFile fid) s).1 := by
  simp only [exec]
  (try dsimp only) <;> (repeat' split) <;> (try dsimp only) <;>
    (repeat
      first
        | exact pinv_refl _
        | refine pinv_trans ?_ (ih _ _)
        | refine pinv_trans ?_ (pinv_addError _ _)
        | refine pinv_trans ?_ (pinv_setCurrent _ _)
        | refine pinv_trans ?_ (pinv_updNode _ _ _)
        | refine pinv_trans ?_ (pinv_allocNode _ _)
        | refine pinv_trans ?_ (pinv_addTypeToResults _ _)
        | refine pinv_trans ?_ (pinv_combineMembers _ _ _)
        | refine pinv_trans ?_ (pinv_backfillProps _ _)
        | refine pinv_trans ?_ (pinv_processCodeSystem _ _)
        | refine pinv_trans ?_ (pinv_processPrimitive _ _)
        | refine pinv_trans ?_ (pinv_createSubType _ _ _)
        | refine pinv_trans ?_ (pinv_getResourceNameFromProfile _ _)
        | refine pinv_trans ?_ (pinv_processConcepts _ _ _ _)
        | refine pinv_trans ?_ (pinv_updFile _ _ _ (fun f => fileLe_setReferenced f))
        | refine pinv_trans ?_ (pinv_updFile _ _ _ (fun f => fileLe_setQueued f))
        | refine pinv_trans ?_ (pinv_updFile _ _ _ (fun f => fileLe_setProcessed f))
        | refine pinv_trans ?_ (pinv_updFile _ _ _ (fun f => fileLe_setType f _))
        | refine pinv_trans ?_ (pinv_updFile _ _ _ (fun f => fileLe_setSymbol f _)))

set_option maxHeartbeats 1000000 in
set_option maxRecDepth 2048 in
theorem pinv_case_processFile (n : Nat) (ih : ∀ c s, PInv s (exec n c s).1)
    (fid : String) (s : PState) :
    PInv s (exec (n + 1) (.processFile fid) s).1 := by
  simp only [exec]
  cases hf : lookupFile s fid with
  | none => exact pinv_refl s
  | some file =>
      dsimp only
      split
      · exact pinv_refl s
      · refine pinv_trans ?_ (pinv_setCurrent _ _)
        refine pinv_trans ?_ (pinv_updFile _ _ _ (fun f => fileLe_setProcessed f))
        have tail : PInv s (setCurrent (updFile s fid
            (fun f => { f with queued := true })) (some file.filename)) := by
          refine pinv_trans ?_ (pinv_setCurrent _ _)
          exact pinv_updFile _ _ _ (fun f => fileLe_setQueued f)
        split
        · exact pinv_trans tail (ih _ _)
        · exact pinv_trans tail (ih _ _)
        · exact pinv_trans tail (pinv_processCodeSystem _ _)
        · exact pinv_trans tail (pinv_addError _ _)
        · exact tail
set_option maxHeartbeats 1000000 in
set_option maxRecDepth 2048 in
theorem pinv_case_processValueSet (n : Nat) (ih : ∀ c s, PInv s (exec n c s).1)
    (fid : String) (s : PState) :
    PInv s (exec (n + 1) (.processValueSet fid) s).1 := by
  simp only [exec]
  (try dsimp only) <;> (repeat' split) <;> (try dsimp only) <;>
    (repeat
      first
        | exact pinv_refl _
        | refine pinv_trans ?_ (ih _ _)
        | refine pinv_trans ?_ (pinv_addError _ _)
        | refine pinv_trans ?_ (pinv_setCurrent _ _)
        | refine pinv_trans ?_ (pinv_updNode _ _ _)
        | refine pinv_trans ?_ (pinv_allocNode _ _)
        | refine pinv_trans ?_ (pinv_addTypeToResults _ _)
        | refine pinv_trans ?_ (pinv_combineMembers _ _ _)
        | refine pinv_trans ?_ (pinv_backfillProps _ _)
        | refine pinv_trans ?_ (pinv_processCodeSystem _ _)
        | refine pinv_trans ?_ (pinv_processPrimitive _ _)
        | refine pinv_trans ?_ (pinv_createSubType _ _ _)
        | refine pinv_trans ?_ (pinv_getResourceNameFromProfile _ _)
        | refine pinv_trans ?_ (pinv_processConcepts _ _ _ _)
        | refine pinv_trans ?_ (pinv_updFile _ _ _ (fun f => fileLe_setReferenced f))
        | refine pinv_trans ?_ (pinv_updFile _ _ _ (fun f => fileLe_setQueued f))
        | refine pinv_trans ?_ (pinv_updFile _ _ _ (fun f => fileLe_setProcessed f))
        | refine pinv_trans ?_ (pinv_updFile _ _ _ (fun f => fileLe_setType f _))
        | refine pinv_trans ?_ (pinv_updFile _ _ _ (fun f => fileLe_setSymbol f _)))

set_option maxHeartbeats 1000000 in
set_option maxRecDepth 2048 in
theorem pinv_case_vsIncludes (n : Nat) (ih : ∀ c s, PInv s (exec n c s).1)
    (tIdx : Nat) (incs : List VSInclude) (s : PState) :
    PInv s (exec (n + 1) (.vsIncludes tIdx incs) s).1 := by
  simp only [exec]
  cases incs with
  | nil => exact pinv_refl s
  | cons inc rest =>
      dsimp only
      refine pinv_trans ?_ (ih _ _)
      refine pinv_trans ?_ (pinv_combineMembers _ _ _)
      exact ih _ _
set_option maxHeartbeats 1000000 in
set_option maxRecDepth 2048 in
theorem pinv_case_vsIncludeOne (n : Nat) (ih : ∀ c s, PInv s (exec n c s).1)
    (tIdx : Nat) (inc : VSInclude) (s : PState) :
    PInv s (exec (n + 1) (.vsIncludeOne tIdx inc) s).1 := by
  simp only [exec]
  (try dsimp only)
  split
  · have base : PInv s (exec n
        (.vsSubstitute (inc.system.getD "")
          (processConcepts s inc.concept (some true) inc.system).2)
        (processConcepts s inc.concept (some true) inc.system).1).1 := by
      refine pinv_trans ?_ (ih _ _)
      exact pinv_processConcepts _ _ _ _
    split
    · exact pinv_trans base (ih _ _)
    · exact base
  · split
    · exact ih _ _
    · exact pinv_refl s
set_option maxHeartbeats 1000000 in
set_option maxRecDepth 2048 in
theorem pinv_case_vsImports (n : Nat) (ih : ∀ c s, PInv s (exec n c s).1)
    (tIdx : Nat) (urls : List String) (s : PState) :
    PInv s (exec (n + 1) (.vsImports tIdx urls) s).1 := by
  simp only [exec]
  cases urls with
  | nil => exact pinv_refl s
  | cons url rest =>
      dsimp only
      refine pinv_trans ?_ (ih _ _)
      refine pinv_trans ?_ (pinv_combineMembers _ _ _)
      exact ih _ _
set_option maxHeartbeats 1000000 in
set_option maxRecDepth 2048 in
theorem pinv_case_vsImport (n : Nat) (ih : ∀ c s, PInv s (exec n c s).1)
    (url : String) (s : PState) :
    PInv s (exec (n + 1) (.vsImport url) s).1 := by
  simp only [exec]
  (try dsimp only) <;> (repeat' split) <;> (try dsimp only) <;>
    (repeat
      first
        | exact pinv_refl _
        | refine pinv_trans ?_ (ih _ _)
        | refine pinv_trans ?_ (pinv_addError _ _)
        | refine pinv_trans ?_ (pinv_setCurrent _ _)
        | refine pinv_trans ?_ (pinv_updNode _ _ _)
        | refine pinv_trans ?_ (pinv_allocNode _ _)
        | refine pinv_trans ?_ (pinv_addTypeToResults _ _)
        | refine pinv_trans ?_ (pinv_combineMembers _ _ _)
        | refine pinv_trans ?_ (pinv_backfillProps _ _)
        | refine pinv_trans ?_ (pinv_processCodeSystem _ _)
        | refine pinv_trans ?_ (pinv_processPrimitive _ _)
        | refine pinv_trans ?_ (pinv_createSubType _ _ _)
        | refine pinv_trans ?_ (pinv_getResourceNameFromProfile _ _)
        | refine pinv_trans ?_ (pinv_processConcepts _ _ _ _)
        | refine pinv_trans ?_ (pinv_updFile _ _ _ (fun f => fileLe_setReferenced f))
        | refine pinv_trans ?_ (pinv_updFile _ _ _ (fun f => fileLe_setQueued f))
        | refine pinv_trans ?_ (pinv_updFile _ _ _ (fun f => fileLe_setProcessed f))
        | refine pinv_trans ?_ (pinv_updFile _ _ _ (fun f => fileLe_setType f _))
        | refine pinv_trans ?_ (pinv_updFile _ _ _ (fun f => fileLe_setSymbol f _)))

set_option maxHeartbeats 1000000 in
set_option maxRecDepth 2048 in
theorem pinv_case_vsSubstitute (n : Nat) (ih : ∀ c s, PInv s (exec n c s).1)
    (url : String) (ms : List EnumMemberV) (s : PState) :
    PInv s (exec (n + 1) (.vsSubstitute url ms) s).1 := by
  simp only [exec]
  (try dsimp only) <;> (repeat' split) <;> (try dsimp only) <;>
    (repeat
      first
        | exact pinv_refl _
        | refine pinv_trans ?_ (ih _ _)
        | refine pinv_trans ?_ (pinv_addError _ _)
        | refine pinv_trans ?_ (pinv_setCurrent _ _)
        | refine pinv_trans ?_ (pinv_updNode _ _ _)
        | refine pinv_trans ?_ (pinv_allocNode _ _)
        | refine pinv_trans ?_ (pinv_addTypeToResults _ _)
        | refine pinv_trans ?_ (pinv_combineMembers _ _ _)
        | refine pinv_trans ?_ (pinv_backfillProps _ _)
        | refine pinv_trans ?_ (pinv_processCodeSystem _ _)
        | refine pinv_trans ?_ (pinv_processPrimitive _ _)
        | refine pinv_trans ?_ (pinv_createSubType _ _ _)
        | refine pinv_trans ?_ (pinv_getResourceNameFromProfile _ _)
        | refine pinv_trans ?_ (pinv_processConcepts _ _ _ _)
        | refine pinv_trans ?_ (pinv_updFile _ _ _ (fun f => fileLe_setReferenced f))
        | refine pinv_trans ?_ (pinv_updFile _ _ _ (fun f => fileLe_setQueued f))
        | refine pinv_trans ?_ (pinv_updFile _ _ _ (fun f => fileLe_setProcessed f))
        | refine pinv_trans ?_ (pinv_updFile _ _ _ (fun f => fileLe_setType f _))
        | refine pinv_trans ?_ (pinv_updFile _ _ _ (fun f => fileLe_setSymbol f _)))

set_option maxHeartbeats 1000000 in
set_option maxRecDepth 2048 in
theorem pinv_case_vsFilters (n : Nat) (ih : ∀ c s, PInv s (exec n c s).1)
    (url : String) (fs : List IncludeFilter) (ms : List EnumMemberV) (s : PState) :
    PInv s (exec (n + 1) (.vsFilters url fs ms) s).1 := by
  simp only [exec]
  (try dsimp only) <;> (repeat' split) <;> (try dsimp only) <;>
    (repeat
      first
        | exact pinv_refl _
        | refine pinv_trans ?_ (ih _ _)
        | refine pinv_trans ?_ (pinv_addError _ _)
        | refine pinv_trans ?_ (pinv_setCurrent _ _)
        | refine pinv_trans ?_ (pinv_updNode _ _ _)
        | refine pinv_trans ?_ (pinv_allocNode _ _)
        | refine pinv_trans ?_ (pinv_addTypeToResults _ _)
        | refine pinv_trans ?_ (pinv_combineMembers _ _ _)
        | refine pinv_trans ?_ (pinv_backfillProps _ _)
        | refine pinv_trans ?_ (pinv_processCodeSystem _ _)
        | refine pinv_trans ?_ (pinv_processPrimitive _ _)
        | refine pinv_trans ?_ (pinv_createSubType _ _ _)
        | refine pinv_trans ?_ (pinv_getResourceNameFromProfile _ _)
        | refine pinv_trans ?_ (pinv_processConcepts _ _ _ _)
        | refine pinv_trans ?_ (pinv_updFile _ _ _ (fun f => fileLe_setReferenced f))
        | refine pinv_trans ?_ (pinv_updFile _ _ _ (fun f => fileLe_setQueued f))
        | refine pinv_trans ?_ (pinv_updFile _ _ _ (fun f => fileLe_setProcessed f))
        | refine pinv_trans ?_ (pinv_updFile _ _ _ (fun f => fileLe_setType f _))
        | refine pinv_trans ?_ (pinv_updFile _ _ _ (fun f => fileLe_setSymbol f _)))

set_option maxHeartbeats 1000000 in
set_option maxRecDepth 2048 in
theorem pinv_case_vsFilterOne (n : Nat) (ih : ∀ c s, PInv s (exec n c s).1)
    (url : String) (f : IncludeFilter) (ms : List EnumMemberV) (s : PState) :
    PInv s (exec (n + 1) (.vsFilterOne url f ms) s).1 := by
  simp only [exec]
  (try dsimp only) <;> (repeat' split) <;> (try dsimp only) <;>
    (repeat
      first
        | exact pinv_refl _
        | refine pinv_trans ?_ (ih _ _)
        | refine pinv_trans ?_ (pinv_addError _ _)
        | refine pinv_trans ?_ (pinv_setCurrent _ _)
        | refine pinv_trans ?_ (pinv_updNode _ _ _)
        | refine pinv_trans ?_ (pinv_allocNode _ _)
        | refine pinv_trans ?_ (pinv_addTypeToResults _ _)
        | refine pinv_trans ?_ (pinv_combineMembers _ _ _)
        | refine pinv_trans ?_ (pinv_backfillProps _ _)
        | refine pinv_trans ?_ (pinv_processCodeSystem _ _)
        | refine pinv_trans ?_ (pinv_processPrimitive _ _)
        | refine pinv_trans ?_ (pinv_createSubType _ _ _)
        | refine pinv_trans ?_ (pinv_getResourceNameFromProfile _ _)
        | refine pinv_trans ?_ (pinv_processConcepts _ _ _ _)
        | refine pinv_trans ?_ (pinv_updFile _ _ _ (fun f => fileLe_setReferenced f))
        | refine pinv_trans ?_ (pinv_updFile _ _ _ (fun f => fileLe_setQueued f))
        | refine pinv_trans ?_ (pinv_updFile _ _ _ (fun f => fileLe_setProcessed f))
        | refine pinv_trans ?_ (pinv_updFile _ _ _ (fun f => fileLe_setType f _))
        | refine pinv_trans ?_ (pinv_updFile _ _ _ (fun f => fileLe_setSymbol f _)))

set_option maxHeartbeats 1000000 in
set_option maxRecDepth 2048 in
theorem pinv_case_sdProcess (n : Nat) (ih : ∀ c s, PInv s (exec n c s).1)
    (fid : String) (s : PState) :
    PInv s (exec (n + 1) (.sdProcess fid) s).1 := by
  simp only [exec]
  (try dsimp only) <;> (repeat' split) <;> (try dsimp only) <;>
    (repeat
      first
        | exact pinv_refl _
        | refine pinv_trans ?_ (ih _ _)
        | exact pinv_processPrimitive _ _
        | exact pinv_addError _ _)
set_option maxHeartbeats 1000000 in
set_option maxRecDepth 2048 in
theorem pinv_case_typeDef (n : Nat) (ih : ∀ c s, PInv s (exec n c s).1)
    (fid : String) (s : PState) :
    PInv s (exec (n + 1) (.typeDef fid) s).1 := by
  simp only [exec]
  (try dsimp only) <;> (repeat' split) <;> (try dsimp only) <;>
    (repeat
      first
        | exact pinv_refl _
        | refine pinv_trans ?_ (ih _ _)
        | refine pinv_trans ?_ (pinv_addError _ _)
        | refine pinv_trans ?_ (pinv_updNode _ _ _)
        | refine pinv_trans ?_ (pinv_getResourceNameFromProfile _ _)
        | refine pinv_trans ?_ (pinv_updFile _ _ _ (fun f => fileLe_setType f _))
        | exact pinv_allocNode _ _)
set_option maxHeartbeats 1000000 in
set_option maxRecDepth 2048 in
theorem pinv_case_typeDefBody (n : Nat) (ih : ∀ c s, PInv s (exec n c s).1)
    (fid : String) (tIdx : Nat) (s : PState) :
    PInv s (exec (n + 1) (.typeDefBody fid tIdx) s).1 := by
  simp only [exec]
  (try dsimp only) <;> (repeat' split) <;> (try dsimp only) <;>
    (repeat
      first
        | exact pinv_refl _
        | refine pinv_trans ?_ (ih _ _)
        | refine pinv_trans ?_ (pinv_backfillProps _ _)
        | exact ih _ _)
set_option maxHeartbeats 1000000 in
set_option maxRecDepth 2048 in
theorem pinv_case_elementsLoop (n : Nat) (ih : ∀ c s, PInv s (exec n c s).1)
    (tIdx : Nat) (els : List ElementDefinition) (s : PState) :
    PInv s (exec (n + 1) (.elementsLoop tIdx els) s).1 := by
  simp only [exec]
  (try dsimp only) <;> (repeat' split) <;> (try dsimp only) <;>
    (repeat
      first
        | exact pinv_refl _
        | refine pinv_trans ?_ (ih _ _)
        | refine pinv_trans ?_ (pinv_addError _ _)
        | refine pinv_trans ?_ (pinv_setCurrent _ _)
        | refine pinv_trans ?_ (pinv_updNode _ _ _)
        | refine pinv_trans ?_ (pinv_allocNode _ _)
        | refine pinv_trans ?_ (pinv_addTypeToResults _ _)
        | refine pinv_trans ?_ (pinv_combineMembers _ _ _)
        | refine pinv_trans ?_ (pinv_backfillProps _ _)
        | refine pinv_trans ?_ (pinv_processCodeSystem _ _)
        | refine pinv_trans ?_ (pinv_processPrimitive _ _)
        | refine pinv_trans ?_ (pinv_createSubType _ _ _)
        | refine pinv_trans ?_ (pinv_getResourceNameFromProfile _ _)
        | refine pinv_trans ?_ (pinv_processConcepts _ _ _ _)
        | refine pinv_trans ?_ (pinv_updFile _ _ _ (fun f => fileLe_setReferenced f))
        | refine pinv_trans ?_ (pinv_updFile _ _ _ (fun f => fileLe_setQueued f))
        | refine pinv_trans ?_ (pinv_updFile _ _ _ (fun f => fileLe_setProcessed f))
        | refine pinv_trans ?_ (pinv_updFile _ _ _ (fun f => fileLe_setType f _))
        | refine pinv_trans ?_ (pinv_updFile _ _ _ (fun f => fileLe_setSymbol f _)))

set_option maxHeartbeats 1000000 in
set_option maxRecDepth 2048 in
theorem pinv_case_typeRefs (n : Nat) (ih : ∀ c s, PInv s (exec n c s).1)
    (types : Option (List ElementTypeRef)) (s : PState) :
    PInv s (exec (n + 1) (.typeRefs types) s).1 := by
  simp only [exec]
  (try dsimp only) <;> (repeat' split) <;> (try dsimp only) <;>
    (repeat
      first
        | exact pinv_refl _
        | refine pinv_trans ?_ (ih _ _)
        | refine pinv_trans ?_ (pinv_addError _ _)
        | refine pinv_trans ?_ (pinv_setCurrent _ _)
        | refine pinv_trans ?_ (pinv_updNode _ _ _)
        | refine pinv_trans ?_ (pinv_allocNode _ _)
        | refine pinv_trans ?_ (pinv_addTypeToResults _ _)
        | refine pinv_trans ?_ (pinv_combineMembers _ _ _)
        | refine pinv_trans ?_ (pinv_backfillProps _ _)
        | refine pinv_trans ?_ (pinv_processCodeSystem _ _)
        | refine pinv_trans ?_ (pinv_processPrimitive _ _)
        | refine pinv_trans ?_ (pinv_createSubType _ _ _)
        | refine pinv_trans ?_ (pinv_getResourceNameFromProfile _ _)
        | refine pinv_trans ?_ (pinv_processConcepts _ _ _ _)
        | refine pinv_trans ?_ (pinv_updFile _ _ _ (fun f => fileLe_setReferenced f))
        | refine pinv_trans ?_ (pinv_updFile _ _ _ (fun f => fileLe_setQueued f))
        | refine pinv_trans ?_ (pinv_updFile _ _ _ (fun f => fileLe_setProcessed f))
        | refine pinv_trans ?_ (pinv_updFile _ _ _ (fun f => fileLe_setType f _))
        | refine pinv_trans ?_ (pinv_updFile _ _ _ (fun f => fileLe_setSymbol f _)))

set_option maxHeartbeats 1000000 in
set_option maxRecDepth 2048 in
theorem pinv_case_typeRefsLoop (n : Nat) (ih : ∀ c s, PInv s (exec n c s).1)
    (items : List ElementTypeRef) (acc : List TypeExpr) (s : PState) :
    PInv s (exec (n + 1) (.typeRefsLoop items acc) s).1 := by
  simp only [exec]
  (try dsimp only) <;> (repeat' split) <;> (try dsimp only) <;>
    (repeat
      first
        | exact pinv_refl _
        | refine pinv_trans ?_ (ih _ _)
        | refine pinv_trans ?_ (pinv_addError _ _)
        | refine pinv_trans ?_ (pinv_setCurrent _ _)
        | refine pinv_trans ?_ (pinv_updNode _ _ _)
        | refine pinv_trans ?_ (pinv_allocNode _ _)
        | refine pinv_trans ?_ (pinv_addTypeToResults _ _)
        | refine pinv_trans ?_ (pinv_combineMembers _ _ _)
        | refine pinv_trans ?_ (pinv_backfillProps _ _)
        | refine pinv_trans ?_ (pinv_processCodeSystem _ _)
        | refine pinv_trans ?_ (pinv_processPrimitive _ _)
        | refine pinv_trans ?_ (pinv_createSubType _ _ _)
        | refine pinv_trans ?_ (pinv_getResourceNameFromProfile _ _)
        | refine pinv_trans ?_ (pinv_processConcepts _ _ _ _)
        | refine pinv_trans ?_ (pinv_updFile _ _ _ (fun f => fileLe_setReferenced f))
        | refine pinv_trans ?_ (pinv_updFile _ _ _ (fun f => fileLe_setQueued f))
        | refine pinv_trans ?_ (pinv_updFile _ _ _ (fun f => fileLe_setProcessed f))
        | refine pinv_trans ?_ (pinv_updFile _ _ _ (fun f => fileLe_setType f _))
        | refine pinv_trans ?_ (pinv_updFile _ _ _ (fun f => fileLe_setSymbol f _)))

set_option maxHeartbeats 1000000 in
set_option maxRecDepth 2048 in
theorem pinv_case_typeRefProfile (n : Nat) (ih : ∀ c s, PInv s (exec n c s).1)
    (profile : Option String) (s : PState) :
    PInv s (exec (n + 1) (.typeRefProfile profile) s).1 := by
  simp only [exec]
  (try dsimp only) <;> (repeat' split) <;> (try dsimp only) <;>
    (repeat
      first
        | exact pinv_refl _
        | refine pinv_trans ?_ (ih _ _)
        | refine pinv_trans ?_ (pinv_addError _ _)
        | exact pinv_getResourceNameFromProfile _ _
        | refine pinv_trans ?_ (pinv_getResourceNameFromProfile _ _))
set_option maxHeartbeats 1000000 in
set_option maxRecDepth 2048 in
theorem pinv_case_fileForType (n : Nat) (ih : ∀ c s, PInv s (exec n c s).1)
    (name : String) (s : PState) :
    PInv s (exec (n + 1) (.fileForType name) s).1 := by
  simp only [exec]
  (try dsimp only) <;> (repeat' split) <;> (try dsimp only) <;>
    (repeat
      first
        | exact pinv_refl _
        | refine pinv_trans ?_ (ih _ _)
        | refine pinv_trans ?_ (pinv_addError _ _)
        | refine pinv_trans ?_ (pinv_setCurrent _ _)
        | refine pinv_trans ?_ (pinv_updNode _ _ _)
        | refine pinv_trans ?_ (pinv_allocNode _ _)
        | refine pinv_trans ?_ (pinv_addTypeToResults _ _)
        | refine pinv_trans ?_ (pinv_combineMembers _ _ _)
        | refine pinv_trans ?_ (pinv_backfillProps _ _)
        | refine pinv_trans ?_ (pinv_processCodeSystem _ _)
        | refine pinv_trans ?_ (pinv_processPrimitive _ _)
        | refine pinv_trans ?_ (pinv_createSubType _ _ _)
        | refine pinv_trans ?_ (pinv_getResourceNameFromProfile _ _)
        | refine pinv_trans ?_ (pinv_processConcepts _ _ _ _)
        | refine pinv_trans ?_ (pinv_updFile _ _ _ (fun f => fileLe_setReferenced f))
        | refine pinv_trans ?_ (pinv_updFile _ _ _ (fun f => fileLe_setQueued f))
        | refine pinv_trans ?_ (pinv_updFile _ _ _ (fun f => fileLe_setProcessed f))
        | refine pinv_trans ?_ (pinv_updFile _ _ _ (fun f => fileLe_setType f _))
        | refine pinv_trans ?_ (pinv_updFile _ _ _ (fun f => fileLe_setSymbol f _)))

set_option maxHeartbeats 1000000 in
set_option maxRecDepth 2048 in
theorem pinv_case_propTypeForElement (n : Nat) (ih : ∀ c s, PInv s (exec n c s).1)
    (rootIdx : Nat) (el : ElementDefinition) (s : PState) :
    PInv s (exec (n + 1) (.propTypeForElement rootIdx el) s).1 := by
  simp only [exec]
  (try dsimp only) <;> (repeat' split) <;> (try dsimp only) <;>
    (repeat
      first
        | exact pinv_refl _
        | refine pinv_trans ?_ (ih _ _)
        | refine pinv_trans ?_ (pinv_addError _ _)
        | refine pinv_trans ?_ (pinv_setCurrent _ _)
        | refine pinv_trans ?_ (pinv_updNode _ _ _)
        | refine pinv_trans ?_ (pinv_allocNode _ _)
        | refine pinv_trans ?_ (pinv_addTypeToResults _ _)
        | refine pinv_trans ?_ (pinv_combineMembers _ _ _)
        | refine pinv_trans ?_ (pinv_backfillProps _ _)
        | refine pinv_trans ?_ (pinv_processCodeSystem _ _)
        | refine pinv_trans ?_ (pinv_processPrimitive _ _)
        | refine pinv_trans ?_ (pinv_createSubType _ _ _)
        | refine pinv_trans ?_ (pinv_getResourceNameFromProfile _ _)
        | refine pinv_trans ?_ (pinv_processConcepts _ _ _ _)
        | refine pinv_trans ?_ (pinv_updFile _ _ _ (fun f => fileLe_setReferenced f))
        | refine pinv_trans ?_ (pinv_updFile _ _ _ (fun f => fileLe_setQueued f))
        | refine pinv_trans ?_ (pinv_updFile _ _ _ (fun f => fileLe_setProcessed f))
        | refine pinv_trans ?_ (pinv_updFile _ _ _ (fun f => fileLe_setType f _))
        | refine pinv_trans ?_ (pinv_updFile _ _ _ (fun f => fileLe_setSymbol f _)))

set_option maxHeartbeats 1000000 in
set_option maxRecDepth 2048 in
theorem pinv_case_bindingRef (n : Nat) (ih : ∀ c s, PInv s (exec n c s).1)
    (el : ElementDefinition) (s : PState) :
    PInv s (exec (n + 1) (.bindingRef el) s).1 := by
  simp only [exec]
  (try dsimp only) <;> (repeat' split) <;> (try dsimp only) <;>
    (repeat
      first
        | exact pinv_refl _
        | refine pinv_trans ?_ (ih _ _)
        | refine pinv_trans ?_ (pinv_addError _ _)
        | refine pinv_trans ?_ (pinv_setCurrent _ _)
        | refine pinv_trans ?_ (pinv_updNode _ _ _)
        | refine pinv_trans ?_ (pinv_allocNode _ _)
        | refine pinv_trans ?_ (pinv_addTypeToResults _ _)
        | refine pinv_trans ?_ (pinv_combineMembers _ _ _)
        | refine pinv_trans ?_ (pinv_backfillProps _ _)
        | refine pinv_trans ?_ (pinv_processCodeSystem _ _)
        | refine pinv_trans ?_ (pinv_processPrimitive _ _)
        | refine pinv_trans ?_ (pinv_createSubType _ _ _)
        | refine pinv_trans ?_ (pinv_getResourceNameFromProfile _ _)
        | refine pinv_trans ?_ (pinv_processConcepts _ _ _ _)
        | refine pinv_trans ?_ (pinv_updFile _ _ _ (fun f => fileLe_setReferenced f))
        | refine pinv_trans ?_ (pinv_updFile _ _ _ (fun f => fileLe_setQueued f))
        | refine pinv_trans ?_ (pinv_updFile _ _ _ (fun f => fileLe_setProcessed f))
        | refine pinv_trans ?_ (pinv_updFile _ _ _ (fun f => fileLe_setType f _))
        | refine pinv_trans ?_ (pinv_updFile _ _ _ (fun f => fileLe_setSymbol f _)))

set_option maxHeartbeats 1000000 in
set_option maxRecDepth 2048 in
theorem pinv_case_typeByName (n : Nat) (ih : ∀ c s, PInv s (exec n c s).1)
    (name : Option String) (s : PState) :
    PInv s (exec (n + 1) (.typeByName name) s).1 := by
  simp only [exec]
  (try dsimp only) <;> (repeat' split) <;> (try dsimp only) <;>
    (repeat
      first
        | exact pinv_refl _
        | refine pinv_trans ?_ (ih _ _)
        | refine pinv_trans ?_ (pinv_addError _ _)
        | refine pinv_trans ?_ (pinv_setCurrent _ _)
        | refine pinv_trans ?_ (pinv_updNode _ _ _)
        | refine pinv_trans ?_ (pinv_allocNode _ _)
        | refine pinv_trans ?_ (pinv_addTypeToResults _ _)
        | refine pinv_trans ?_ (pinv_combineMembers _ _ _)
        | refine pinv_trans ?_ (pinv_backfillProps _ _)
        | refine pinv_trans ?_ (pinv_processCodeSystem _ _)
        | refine pinv_trans ?_ (pinv_processPrimitive _ _)
        | refine pinv_trans ?_ (pinv_createSubType _ _ _)
        | refine pinv_trans ?_ (pinv_getResourceNameFromProfile _ _)
        | refine pinv_trans ?_ (pinv_processConcepts _ _ _ _)
        | refine pinv_trans ?_ (pinv_updFile _ _ _ (fun f => fileLe_setReferenced f))
        | refine pinv_trans ?_ (pinv_updFile _ _ _ (fun f => fileLe_setQueued f))
        | refine pinv_trans ?_ (pinv_updFile _ _ _ (fun f => fileLe_setProcessed f))
        | refine pinv_trans ?_ (pinv_updFile _ _ _ (fun f => fileLe_setType f _))
        | refine pinv_trans ?_ (pinv_updFile _ _ _ (fun f => fileLe_setSymbol f _)))

set_option maxHeartbeats 1000000 in
set_option maxRecDepth 2048 in
theorem pinv_case_refType (n : Nat) (ih : ∀ c s, PInv s (exec n c s).1)
    (t : Option TypeExpr) (cat : Option Nat) (s : PState) :
    PInv s (exec (n + 1) (.refType t cat) s).1 := by
  simp only [exec]
  (try dsimp only) <;> (repeat' split) <;> (try dsimp only) <;>
    (repeat
      first
        | exact pinv_refl _
        | refine pinv_trans ?_ (ih _ _)
        | refine pinv_trans ?_ (pinv_addError _ _)
        | refine pinv_trans ?_ (pinv_setCurrent _ _)
        | refine pinv_trans ?_ (pinv_updNode _ _ _)
        | refine pinv_trans ?_ (pinv_allocNode _ _)
        | refine pinv_trans ?_ (pinv_addTypeToResults _ _)
        | refine pinv_trans ?_ (pinv_combineMembers _ _ _)
        | refine pinv_trans ?_ (pinv_backfillProps _ _)
        | refine pinv_trans ?_ (pinv_processCodeSystem _ _)
        | refine pinv_trans ?_ (pinv_processPrimitive _ _)
        | refine pinv_trans ?_ (pinv_createSubType _ _ _)
        | refine pinv_trans ?_ (pinv_getResourceNameFromProfile _ _)
        | refine pinv_trans ?_ (pinv_processConcepts _ _ _ _)
        | refine pinv_trans ?_ (pinv_updFile _ _ _ (fun f => fileLe_setReferenced f))
        | refine pinv_trans ?_ (pinv_updFile _ _ _ (fun f => fileLe_setQueued f))
        | refine pinv_trans ?_ (pinv_updFile _ _ _ (fun f => fileLe_setProcessed f))
        | refine pinv_trans ?_ (pinv_updFile _ _ _ (fun f => fileLe_setType f _))
        | refine pinv_trans ?_ (pinv_updFile _ _ _ (fun f => fileLe_setSymbol f _)))

set_option maxHeartbeats 1000000 in
set_option maxRecDepth 2048 in
theorem pinv_case_containingForElement (n : Nat) (ih : ∀ c s, PInv s (exec n c s).1)
    (rootIdx : Nat) (el : ElementDefinition) (s : PState) :
    PInv s (exec (n + 1) (.containingForElement rootIdx el) s).1 := by
  simp only [exec]
  (try dsimp only) <;> (repeat' split) <;> (try dsimp only) <;>
    (repeat
      first
        | exact pinv_refl _
        | refine pinv_trans ?_ (ih _ _)
        | refine pinv_trans ?_ (pinv_addError _ _)
        | refine pinv_trans ?_ (pinv_setCurrent _ _)
        | refine pinv_trans ?_ (pinv_updNode _ _ _)
        | refine pinv_trans ?_ (pinv_allocNode _ _)
        | refine pinv_trans ?_ (pinv_addTypeToResults _ _)
        | refine pinv_trans ?_ (pinv_combineMembers _ _ _)
        | refine pinv_trans ?_ (pinv_backfillProps _ _)
        | refine pinv_trans ?_ (pinv_processCodeSystem _ _)
        | refine pinv_trans ?_ (pinv_processPrimitive _ _)
        | refine pinv_trans ?_ (pinv_createSubType _ _ _)
        | refine pinv_trans ?_ (pinv_getResourceNameFromProfile _ _)
        | refine pinv_trans ?_ (pinv_processConcepts _ _ _ _)
        | refine pinv_trans ?_ (pinv_updFile _ _ _ (fun f => fileLe_setReferenced f))
        | refine pinv_trans ?_ (pinv_updFile _ _ _ (fun f => fileLe_setQueued f))
        | refine pinv_trans ?_ (pinv_updFile _ _ _ (fun f => fileLe_setProcessed f))
        | refine pinv_trans ?_ (pinv_updFile _ _ _ (fun f => fileLe_setType f _))
        | refine pinv_trans ?_ (pinv_updFile _ _ _ (fun f => fileLe_setSymbol f _)))

set_option maxHeartbeats 1000000 in
set_option maxRecDepth 2048 in
theorem pinv_case_containingForPath (n : Nat) (ih : ∀ c s, PInv s (exec n c s).1)
    (idx : Nat) (parts : List String) (s : PState) :
    PInv s (exec (n + 1) (.containingForPath idx parts) s).1 := by
  simp only [exec]
  (try dsimp only) <;> (repeat' split) <;> (try dsimp only) <;>
    (repeat
      first
        | exact pinv_refl _
        | refine pinv_trans ?_ (ih _ _)
        | refine pinv_trans ?_ (pinv_addError _ _)
        | refine pinv_trans ?_ (pinv_setCurrent _ _)
        | refine pinv_trans ?_ (pinv_updNode _ _ _)
        | refine pinv_trans ?_ (pinv_allocNode _ _)
        | refine pinv_trans ?_ (pinv_addTypeToResults _ _)
        | refine pinv_trans ?_ (pinv_combineMembers _ _ _)
        | refine pinv_trans ?_ (pinv_backfillProps _ _)
        | refine pinv_trans ?_ (pinv_processCodeSystem _ _)
        | refine pinv_trans ?_ (pinv_processPrimitive _ _)
        | refine pinv_trans ?_ (pinv_createSubType _ _ _)
        | refine pinv_trans ?_ (pinv_getResourceNameFromProfile _ _)
        | refine pinv_trans ?_ (pinv_processConcepts _ _ _ _)
        | refine pinv_trans ?_ (pinv_updFile _ _ _ (fun f => fileLe_setReferenced f))
        | refine pinv_trans ?_ (pinv_updFile _ _ _ (fun f => fileLe_setQueued f))
        | refine pinv_trans ?_ (pinv_updFile _ _ _ (fun f => fileLe_setProcessed f))
        | refine pinv_trans ?_ (pinv_updFile _ _ _ (fun f => fileLe_setType f _))
        | refine pinv_trans ?_ (pinv_updFile _ _ _ (fun f => fileLe_setSymbol f _)))

set_option maxHeartbeats 1000000 in
set_option maxRecDepth 2048 in
theorem pinv_case_hasBase (n : Nat) (ih : ∀ c s, PInv s (exec n c s).1)
    (idx : Nat) (name : String) (s : PState) :
    PInv s (exec (n + 1) (.hasBase idx name) s).1 := by
  simp only [exec]
  (try dsimp only) <;> (repeat' split) <;> (try dsimp only) <;>
    (repeat
      first
        | exact pinv_refl _
        | refine pinv_trans ?_ (ih _ _)
        | refine pinv_trans ?_ (pinv_addError _ _)
        | refine pinv_trans ?_ (pinv_setCurrent _ _)
        | refine pinv_trans ?_ (pinv_updNode _ _ _)
        | refine pinv_trans ?_ (pinv_allocNode _ _)
        | refine pinv_trans ?_ (pinv_addTypeToResults _ _)
        | refine pinv_trans ?_ (pinv_combineMembers _ _ _)
        | refine pinv_trans ?_ (pinv_backfillProps _ _)
        | refine pinv_trans ?_ (pinv_processCodeSystem _ _)
        | refine pinv_trans ?_ (pinv_processPrimitive _ _)
        | refine pinv_trans ?_ (pinv_createSubType _ _ _)
        | refine pinv_trans ?_ (pinv_getResourceNameFromProfile _ _)
        | refine pinv_trans ?_ (pinv_processConcepts _ _ _ _)
        | refine pinv_trans ?_ (pinv_updFile _ _ _ (fun f => fileLe_setReferenced f))
        | refine pinv_trans ?_ (pinv_updFile _ _ _ (fun f => fileLe_setQueued f))
        | refine pinv_trans ?_ (pinv_updFile _ _ _ (fun f => fileLe_setProcessed f))
        | refine pinv_trans ?_ (pinv_updFile _ _ _ (fun f => fileLe_setType f _))
        | refine pinv_trans ?_ (pinv_updFile _ _ _ (fun f => fileLe_setSymbol f _)))

set_option maxHeartbeats 1000000 in
set_option maxRecDepth 2048 in
theorem pinv_case_findFirst (n : Nat) (ih : ∀ c s, PInv s (exec n c s).1)
    (tIdx : Nat) (name : Option String) (checked : List Nat) (s : PState) :
    PInv s (exec (n + 1) (.findFirst tIdx name checked) s).1 := by
  simp only [exec]
  (try dsimp only) <;> (repeat' split) <;> (try dsimp only) <;>
    (repeat
      first
        | exact pinv_refl _
        | refine pinv_trans ?_ (ih _ _)
        | refine pinv_trans ?_ (pinv_addError _ _)
        | refine pinv_trans ?_ (pinv_setCurrent _ _)
        | refine pinv_trans ?_ (pinv_updNode _ _ _)
        | refine pinv_trans ?_ (pinv_allocNode _ _)
        | refine pinv_trans ?_ (pinv_addTypeToResults _ _)
        | refine pinv_trans ?_ (pinv_combineMembers _ _ _)
        | refine pinv_trans ?_ (pinv_backfillProps _ _)
        | refine pinv_trans ?_ (pinv_processCodeSystem _ _)
        | refine pinv_trans ?_ (pinv_processPrimitive _ _)
        | refine pinv_trans ?_ (pinv_createSubType _ _ _)
        | refine pinv_trans ?_ (pinv_getResourceNameFromProfile _ _)
        | refine pinv_trans ?_ (pinv_processConcepts _ _ _ _)
        | refine pinv_trans ?_ (pinv_updFile _ _ _ (fun f => fileLe_setReferenced f))
        | refine pinv_trans ?_ (pinv_updFile _ _ _ (fun f => fileLe_setQueued f))
        | refine pinv_trans ?_ (pinv_updFile _ _ _ (fun f => fileLe_setProcessed f))
        | refine pinv_trans ?_ (pinv_updFile _ _ _ (fun f => fileLe_setType f _))
        | refine pinv_trans ?_ (pinv_updFile _ _ _ (fun f => fileLe_setSymbol f _)))

set_option maxHeartbeats 1000000 in
set_option maxRecDepth 2048 in
theorem pinv_case_findFirstLoop (n : Nat) (ih : ∀ c s, PInv s (exec n c s).1)
    (props : List PropertyV) (name : Option String) (checked : List Nat) (s : PState) :
    PInv s (exec (n + 1) (.findFirstLoop props name checked) s).1 := by
  simp only [exec]
  (try dsimp only) <;> (repeat' split) <;> (try dsimp only) <;>
    (repeat
      first
        | exact pinv_refl _
        | refine pinv_trans ?_ (ih _ _)
        | refine pinv_trans ?_ (pinv_addError _ _)
        | refine pinv_trans ?_ (pinv_setCurrent _ _)
        | refine pinv_trans ?_ (pinv_updNode _ _ _)
        | refine pinv_trans ?_ (pinv_allocNode _ _)
        | refine pinv_trans ?_ (pinv_addTypeToResults _ _)
        | refine pinv_trans ?_ (pinv_combineMembers _ _ _)
        | refine pinv_trans ?_ (pinv_backfillProps _ _)
        | refine pinv_trans ?_ (pinv_processCodeSystem _ _)
        | refine pinv_trans ?_ (pinv_processPrimitive _ _)
        | refine pinv_trans ?_ (pinv_createSubType _ _ _)
        | refine pinv_trans ?_ (pinv_getResourceNameFromProfile _ _)
        | refine pinv_trans ?_ (pinv_processConcepts _ _ _ _)
        | refine pinv_trans ?_ (pinv_updFile _ _ _ (fun f => fileLe_setReferenced f))
        | refine pinv_trans ?_ (pinv_updFile _ _ _ (fun f => fileLe_setQueued f))
        | refine pinv_trans ?_ (pinv_updFile _ _ _ (fun f => fileLe_setProcessed f))
        | refine pinv_trans ?_ (pinv_updFile _ _ _ (fun f => fileLe_setType f _))
        | refine pinv_trans ?_ (pinv_updFile _ _ _ (fun f => fileLe_setSymbol f _)))

/-- Every interpreter run preserves the run invariant `PInv`: visit flags
move only forward, document identity and content are preserved, the files
map keeps its key structure, registry entries are never replaced, and the
error and output lists only grow at the end. -/
theorem exec_inv : ∀ (fuel : Nat) (c : Call) (s : PState), PInv s (exec fuel c s).1 := by
  intro fuel
  induction fuel with
  | zero =>
      intro c s
      simp only [exec]
      exact pinv_refl s
  | succ n ih =>
      intro c s
      cases c with
      | seedLoop keys => exact pinv_case_seedLoop n ih keys s
      | referenceFile fid => exact pinv_case_referenceFile n ih fid s
      | processFile fid => exact pinv_case_processFile n ih fid s
      | processValueSet fid => exact pinv_case_processValueSet n ih fid s
      | vsIncludes tIdx incs => exact pinv_case_vsIncludes n ih tIdx incs s
      | vsIncludeOne tIdx inc => exact pinv_case_vsIncludeOne n ih tIdx inc s
      | vsImports tIdx urls => exact pinv_case_vsImports n ih tIdx urls s
      | vsImport url => exact pinv_case_vsImport n ih url s
      | vsSubstitute url ms => exact pinv_case_vsSubstitute n ih url ms s
      | vsFilters url fs ms => exact pinv_case_vsFilters n ih url fs ms s
      | vsFilterOne url f ms => exact pinv_case_vsFilterOne n ih url f ms s
      | sdProcess fid => exact pinv_case_sdProcess n ih fid s
      | typeDef fid => exact pinv_case_typeDef n ih fid s
      | typeDefBody fid tIdx => exact pinv_case_typeDefBody n ih fid tIdx s
      | elementsLoop tIdx els => exact pinv_case_elementsLoop n ih tIdx els s
      | typeRefs types => exact pinv_case_typeRefs n ih types s
      | typeRefsLoop items acc => exact pinv_case_typeRefsLoop n ih items acc s
      | typeRefProfile profile => exact pinv_case_typeRefProfile n ih profile s
      | fileForType name => exact pinv_case_fileForType n ih name s
      | propTypeForElement rootIdx el => exact pinv_case_propTypeForElement n ih rootIdx el s
      | bindingRef el => exact pinv_case_bindingRef n ih el s
      | typeByName name => exact pinv_case_typeByName n ih name s
      | refType t cat => exact pinv_case_refType n ih t cat s
      | containingForElement rootIdx el => exact pinv_case_containingForElement n ih rootIdx el s
      | containingForPath idx parts => exact pinv_case_containingForPath n ih idx parts s
      | hasBase idx name => exact pinv_case_hasBase n ih idx name s
      | findFirst tIdx name checked => exact pinv_case_findFirst n ih tIdx name checked s
      | findFirstLoop props name checked => exact pinv_case_findFirstLoop n ih props name checked s

/-! ## Claim theorems -/

/-- A nonempty string is JavaScript-truthy. -/
theorem truthyS_some_of_ne (nm : String) (h : nm ≠ "") : truthyS (some nm) = true := by
  unfold truthyS
  cases nm with
  | mk data =>
      cases data with
      | nil => exact absurd rfl h
      | cons c cs => rfl

/-- C9: the value-set URL lookup first rewrites the one historical bad URL
to its canonical counterpart, returns a direct map hit as-is, and on a
direct miss retries exactly once with a `vs` path segment inserted before
the last segment, returning that retry's (possibly absent) result. -/
theorem c9_value_set_lookup (s : PState) (url : String) :
    (getValueSetFile s "http://build.fhir.org/valueset-request-intent.html" =
      getValueSetFile s "http://hl7.org/fhir/ValueSet/request-intent") ∧
    (vsRetryUrl "http://hl7.org/fhir/ValueSet/request-intent" =
      "http://hl7.org/fhir/ValueSet/vs/request-intent") ∧
    ((lookupFile s (rewriteValueSetUrl url)).isSome = true →
      getValueSetFile s url = some (rewriteValueSetUrl url)) ∧
    (lookupFile s (rewriteValueSetUrl url) = none →
      getValueSetFile s url =
        (match lookupFile s (vsRetryUrl (rewriteValueSetUrl url)) with
         | some _ => some (vsRetryUrl (rewriteValueSetUrl url))
         | none => none)) := by
  refine ⟨rfl, by decide, ?_, ?_⟩
  · intro h
    unfold getValueSetFile
    dsimp only
    cases hl : lookupFile s (rewriteValueSetUrl url) with
    | none => rw [hl] at h; simp at h
    | some f => rfl
  · intro h
    unfold getValueSetFile
    dsimp only
    rw [h]

/-- C6: a concept whose code is one of the five comparison operators is
always named by the fixed mapped word, whatever its display text or other
fields hold. -/
theorem c6_mapped_operator_names (system : Option String) (concept : FConcept) :
    (concept.code = some "=" →
      getEnumMemberNameCore system concept = some "Equals") ∧
    (concept.code = some "<" →
      getEnumMemberNameCore system concept = some "LessThan") ∧
    (concept.code = some "<=" →
      getEnumMemberNameCore system concept = some "LessThanOrEqual") ∧
    (concept.code = some ">" →
      getEnumMemberNameCore system concept = some "GreaterThan") ∧
    (concept.code = some ">=" →
      getEnumMemberNameCore system concept = some "GreaterThanOrEqual") := by
  refine ⟨?_, ?_, ?_, ?_, ?_⟩ <;>
    (intro h; unfold getEnumMemberNameCore getMappedName; rw [h]; rfl)

/-- C6 witness: a concept with code `<=` and an arbitrary display is named
`LessThanOrEqual`. -/
theorem c6_mapped_operator_names_witness :
    getEnumMemberNameCore (some "http://sys")
      ⟨some "<=", some "Some Unrelated Display", none, none⟩ =
      some "LessThanOrEqual" :=
  (c6_mapped_operator_names (some "http://sys")
    ⟨some "<=", some "Some Unrelated Display", none, none⟩).2.2.1 rfl

/-- C9 witness: a direct URL hit is returned as-is, and a missing URL is
found again after inserting the `vs` segment. -/
theorem c9_value_set_lookup_witness :
    getValueSetFile c9State "http://a/vs/x" = some "http://a/vs/x" ∧
    getValueSetFile c9State "http://a/x" = some "http://a/vs/x" :=
  ⟨(c9_value_set_lookup c9State "http://a/vs/x").2.2.1 (by rfl),
   (c9_value_set_lookup c9State "http://a/x").2.2.2 (by rfl)⟩

/-- C7: a `"*"` type option is not expanded.  The interpreter's
`getTypeReferences` on a lone wildcard returns an empty reference list with
no state change and no error, and a wildcard next to a concrete option
contributes nothing; the fixed 25-element `openTypeElement` list exists in
the code but is never reached, because the source concatenates it onto a
rebound local while the for-of iterator was captured at loop entry. -/
theorem c7_wildcard_not_expanded :
    (exec 10 (.typeRefs (some [⟨some "*", none⟩])) (initState [])) =
      (initState [], Ret.optExprs (some [])) ∧
    (exec 10 (.typeRefs (some [⟨some "*", none⟩, ⟨some "string", none⟩])) c7State).2 =
      Ret.optExprs (some [TypeExpr.ref (some "string") none]) ∧
    openTypeElement.map (fun e => e.code) =
      [some "integer", some "decimal", some "dateTime", some "date", some "instant",
       some "time", some "string", some "uri", some "boolean", some "code",
       some "base64Binary", some "Coding", some "CodeableConcept", some "Attachment",
       some "Identifier", some "Quantity", some "Range", some "Period", some "Ratio",
       some "HumanName", some "Address", some "ContactPoint", some "Timing",
       some "Signature", some "Reference"] := by
  refine ⟨rfl, rfl, rfl⟩

/-- C4: polymorphic `[x]` expansion.  Concretely, `Observation.value[x]`
with two consecutive `Quantity` options yields exactly one property
`valueQuantity` whose type is a union of the two `Quantity` references,
while options `Quantity` then `string` yield the two properties
`valueQuantity` and `valueString`; in general three identical consecutive
options collapse into one union-typed property (the union is extended in
place), while equal but non-adjacent options do not collapse. -/
theorem c4_polymorphic_expansion :
    (getNode (runProcessFiles 20 c4MapA) 0 =
      some (.interfaceNode "Observation" catResource (some "Obs") none
        [{ name := "valueQuantity", description := some "val",
           type := .union [.ref (some "Quantity") none, .ref (some "Quantity") none],
           optional := true }])) ∧
    (getNode (runProcessFiles 20 c4MapB) 0 =
      some (.interfaceNode "Observation" catResource (some "Obs") none
        [{ name := "valueQuantity", description := some "val",
           type := .ref (some "Quantity") none, optional := true },
         { name := "valueString", description := some "val",
           type := .ref (some "string") none, optional := true }])) ∧
    (∀ (pn : String) (d : Option String) (a : String), a ≠ "" →
      polyProperties pn d
          [.ref (some a) none, .ref (some a) none, .ref (some a) none] =
        [{ name := combinePropertyNameWithType pn a, description := d,
           type := .union [.ref (some a) none, .ref (some a) none, .ref (some a) none],
           optional := true }]) ∧
    (∀ (pn : String) (d : Option String) (a b : String), a ≠ b →
      polyProperties pn d [.ref (some a) none, .ref (some b) none, .ref (some a) none] =
        [{ name := combinePropertyNameWithType pn a, description := d,
           type := .ref (some a) none, optional := true },
         { name := combinePropertyNameWithType pn b, description := d,
           type := .ref (some b) none, optional := true },
         { name := combinePropertyNameWithType pn a, description := d,
           type := .ref (some a) none, optional := true }]) := by
  refine ⟨rfl, rfl, ?_, ?_⟩
  · intro pn d a _
    simp [polyProperties, polyFold, polyMerge, TypeExpr.refName]
  · intro pn d a b hab
    have hba : (some b == some a) = false := by simp; exact fun e => hab e.symm
    have hab2 : (some a == some b) = false := by simp [hab]
    simp [polyProperties, polyFold, polyMerge, TypeExpr.refName, hba, hab2]

/-- C4 witness: the general collapse and adjacency conjuncts at the claim's
concrete option names. -/
theorem c4_polymorphic_expansion_witness :
    polyProperties "value[x]" (some "val")
        [.ref (some "Quantity") none, .ref (some "Quantity") none,
         .ref (some "Quantity") none] =
      [{ name := "valueQuantity", description := some "val",
         type := .union [.ref (some "Quantity") none, .ref (some "Quantity") none,
           .ref (some "Quantity") none],
         optional := true }] ∧
    polyProperties "value[x]" (some "val")
        [.ref (some "Quantity") none, .ref (some "string") none,
         .ref (some "Quantity") none] =
      [{ name := "valueQuantity", description := some "val",
         type := .ref (some "Quantity") none, optional := true },
       { name := "valueString", description := some "val",
         type := .ref (some "string") none, optional := true },
       { name := "valueQuantity", description := some "val",
         type := .ref (some "Quantity") none, optional := true }] :=
  ⟨c4_polymorphic_expansion.2.2.1 "value[x]" (some "val") "Quantity" (by decide),
   c4_polymorphic_expansion.2.2.2 "value[x]" (some "val") "Quantity" "string" (by decide)⟩

/-- C5: a named node whose name is already registered produces one
"Duplicate type name" error, is still appended to the ordered output list
unchanged, and is not entered into the name index; a fresh name is
registered; and a registry entry, once made, is never replaced for the rest
of the run, so each distinct name maps to exactly one node.  Collisions are
never resolved by renaming: the state equations show the heap (and thus the
node's name) untouched. -/
theorem c5_type_name_registry (s : PState) (idx : Nat) (node : TypeNodeV)
    (nm : String) (j : Nat)
    (hn : getNode s idx = some node) (hnm : node.nameO = some nm) (hne : nm ≠ "") :
    (lookupReg s nm = some j →
      addTypeToResults s idx =
        { addError s ("Duplicate type name '" ++ nm ++ "'.") with
            resultTypes := s.resultTypes ++ [idx] }) ∧
    (lookupReg s nm = none →
      addTypeToResults s idx =
        { s with typesByName := s.typesByName ++ [(nm, idx)],
                 resultTypes := s.resultTypes ++ [idx] }) ∧
    (∀ fuel c nm2 i, lookupReg s nm2 = some i →
      lookupReg (exec fuel c s).1 nm2 = some i) := by
  refine ⟨?_, ?_, fun fuel c nm2 i h => (exec_inv fuel c s).2.2.1 nm2 i h⟩
  · intro hreg
    unfold addTypeToResults
    rw [hn]
    dsimp only [TypeNodeV.nameO] at hnm ⊢
    rw [hnm, truthyS_some_of_ne nm hne]
    rw [show (some nm).getD "" = nm from rfl, hreg]
    rfl
  · intro hreg
    unfold addTypeToResults
    rw [hn]
    dsimp only [TypeNodeV.nameO] at hnm ⊢
    rw [hnm, truthyS_some_of_ne nm hne]
    rw [show (some nm).getD "" = nm from rfl, hreg]
    rfl

/-- C5 witness: registering a second node named `X` reports the duplicate
and appends the node without touching the index; registering `Y` extends
the index. -/
theorem c5_type_name_registry_witness :
    addTypeToResults c5State 1 =
      { addError c5State "Duplicate type name 'X'." with
          resultTypes := c5State.resultTypes ++ [1] } ∧
    addTypeToResults c5State 2 =
      { c5State with
          typesByName := c5State.typesByName ++ [("Y", 2)]
          resultTypes := c5State.resultTypes ++ [2] } :=
  ⟨(c5_type_name_registry c5State 1 (.interfaceNode "X" 2 none none []) "X" 0
      rfl rfl (by decide)).1 rfl,
   (c5_type_name_registry c5State 2 (.interfaceNode "Y" 2 none none []) "Y" 0
      rfl rfl (by decide)).2.1 rfl⟩

/-- C10: an error recorded while no document is current carries no filename
prefix; concretely, the duplicate-type-name error raised when registering
the top-level seed document `AB` (whose name collides with the sub-type
synthesized while processing `A`) is the run's only error and appears
unprefixed, because `processFile` restores the cursor before
`referenceFile` registers the node. -/
theorem c10_unattributed_error (s : PState) (m : String) :
    (s.currentFile = none → addError s m = { s with errors := s.errors ++ [m] }) ∧
    (runProcessFiles 20 c10Map).errors = ["Duplicate type name 'AB'."] ∧
    (runProcessFiles 20 c10Map).currentFile = none := by
  refine ⟨?_, rfl, rfl⟩
  intro h
  unfold addError formatError
  rw [h]

/-- C10 witness: the unprefixed-error clause applied at a concrete state
with no current document. -/
theorem c10_unattributed_error_witness :
    addError (initState []) "boom" =
      { initState [] with errors := ["boom"] } :=
  (c10_unattributed_error (initState []) "boom").1 rfl

/-- Specification of the numeric-suffix fallback loop: provided some
candidate in the fuel window is free, the search returns the first free
candidate `originalName_j`, every smaller candidate being taken. -/
theorem suffixSearch_spec (o : Option String) (ms2 : List EnumMemberV) :
    ∀ (k n : Nat),
      (∃ j, n ≤ j ∧ j ≤ n + k ∧
        (ms2.find? (fun x => x.name == some (suffixName o j))).isNone = true) →
      (ms2.find? (fun x => x.name == some (suffixSearch o ms2 n k))).isNone = true ∧
      ∃ jm, n ≤ jm ∧ suffixSearch o ms2 n k = suffixName o jm ∧
        ∀ i, n ≤ i → i < jm →
          (ms2.find? (fun x => x.name == some (suffixName o i))).isSome = true := by
  intro k
  induction k with
  | zero =>
      intro n hex
      obtain ⟨j, hnj, hjk, hfree⟩ := hex
      have hj : j = n := Nat.le_antisymm (by simpa using hjk) hnj
      subst hj
      unfold suffixSearch
      exact ⟨hfree, j, Nat.le_refl j, rfl, fun i h1 h2 => absurd (Nat.lt_of_le_of_lt h1 h2) (Nat.lt_irrefl _)⟩
  | succ k ih =>
      intro n hex
      unfold suffixSearch
      cases hdup : (ms2.find? (fun x => x.name == some (suffixName o n))).isSome with
      | false =>
          simp only [hdup, Bool.false_eq_true, if_false]
          refine ⟨by simpa [Option.isNone] using hdup, n, Nat.le_refl n, rfl, ?_⟩
          intro i h1 h2
          exact absurd (Nat.lt_of_le_of_lt h1 h2) (Nat.lt_irrefl _)
      | true =>
          simp only [hdup, if_true]
          have hex2 : ∃ j, n + 1 ≤ j ∧ j ≤ n + 1 + k ∧
              (ms2.find? (fun x => x.name == some (suffixName o j))).isNone = true := by
            obtain ⟨j, hnj, hjk, hfree⟩ := hex
            refine ⟨j, ?_, by omega, hfree⟩
            rcases Nat.eq_or_lt_of_le hnj with he | hl
            · subst he
              rw [Option.isNone_iff_eq_none] at hfree
              rw [hfree] at hdup
              simp at hdup
            · exact hl
          obtain ⟨hfree2, jm, hjm1, hjm2, hjm3⟩ := ih (n + 1) hex2
          refine ⟨hfree2, jm, by omega, hjm2, ?_⟩
          intro i h1 h2
          rcases Nat.eq_or_lt_of_le h1 with he | hl
          · subst he; exact hdup
          · exact hjm3 i hl h2

/-- C3 counterexample: composing the claim's exact value set (two includes
whose concepts share code `active` with displays `Active` and
`Active (Other)`) yields members named `Active` and `ActiveOther`, not the
claimed `Active` and `Active_1` — the second display already formats to a
distinct name, so no collision occurs. -/
theorem c3_counterexample :
    ((exec 10 (.processFile "http://x/vs1") (initState c3Map)).1.heap.map
      (fun n => n.members.map EnumMemberV.name)) =
      [[some "Active", some "ActiveOther"]] ∧
    [[some "Active", some "ActiveOther"]] ≠
      [[some "Active", some (String.append "Active" "_1")]] := by
  exact ⟨rfl, by decide⟩

/-- C3 (amended): enum-member insertion resolves collisions in exactly the
source's order — accept with no same-named member; drop silently when the
duplicate is fieldwise identical; else rename the new member to its
alternate name and recheck; else also rename the existing member and
recheck (that rename is kept); else append numeric suffixes to the original
name until the first free one.  The claim's concrete input yields `Active`
and `ActiveOther` (no collision at all), while the same composition with
both displays `Active` does exercise the fallback and yields `Active` and
`Active_1`. -/
theorem c3_member_collision_resolution (m : EnumMemberV) (ms : List EnumMemberV) :
    (getDuplicate m ms = none → adjustMemberName m ms = (true, m, ms)) ∧
    (∀ d, getDuplicate m ms = some d → areEnumMembersEqual d m = true →
      adjustMemberName m ms = (false, m, ms)) ∧
    (∀ d, getDuplicate m ms = some d → areEnumMembersEqual d m = false →
      truthyS (getAlternateName m) = true →
      getDuplicate { m with name := getAlternateName m } ms = none →
      adjustMemberName m ms = (true, { m with name := getAlternateName m }, ms)) ∧
    (∀ d d2, getDuplicate m ms = some d → areEnumMembersEqual d m = false →
      truthyS (getAlternateName m) = true →
      getDuplicate { m with name := getAlternateName m } ms = some d2 →
      truthyS (getAlternateName d) = true →
      getDuplicate { m with name := getAlternateName m }
        (renameFirstMember ms d.name (getAlternateName d)) = none →
      adjustMemberName m ms =
        (true, { m with name := getAlternateName m },
          renameFirstMember ms d.name (getAlternateName d))) ∧
    (∀ d d2 d3, getDuplicate m ms = some d → areEnumMembersEqual d m = false →
      truthyS (getAlternateName m) = true →
      getDuplicate { m with name := getAlternateName m } ms = some d2 →
      truthyS (getAlternateName d) = true →
      getDuplicate { m with name := getAlternateName m }
        (renameFirstMember ms d.name (getAlternateName d)) = some d3 →
      adjustMemberName m ms =
        (true,
          { m with name := some (suffixSearch m.name
              (renameFirstMember ms d.name (getAlternateName d)) 1
              ((renameFirstMember ms d.name (getAlternateName d)).length + 1)) },
          renameFirstMember ms d.name (getAlternateName d))) ∧
    (∀ d, getDuplicate m ms = some d → areEnumMembersEqual d m = false →
      truthyS (getAlternateName m) = false →
      adjustMemberName m ms =
        (true, { m with name := some (suffixSearch m.name ms 1 (ms.length + 1)) }, ms)) ∧
    (∀ (o : Option String) (ms2 : List EnumMemberV) (k n : Nat),
      (∃ j, n ≤ j ∧ j ≤ n + k ∧
        (ms2.find? (fun x => x.name == some (suffixName o j))).isNone = true) →
      (ms2.find? (fun x => x.name == some (suffixSearch o ms2 n k))).isNone = true ∧
      ∃ jm, n ≤ jm ∧ suffixSearch o ms2 n k = suffixName o jm ∧
        ∀ i, n ≤ i → i < jm →
          (ms2.find? (fun x => x.name == some (suffixName o i))).isSome = true) ∧
    ((exec 10 (.processFile "http://x/vs1") (initState c3Map)).1.heap.map
      (fun n => n.members.map EnumMemberV.name) =
      [[some "Active", some "ActiveOther"]]) ∧
    ((exec 10 (.processFile "http://x/vs1") (initState c3MapSame)).1.heap.map
      (fun n => n.members.map EnumMemberV.name) =
      [[some "Active", some "Active_1"]]) := by
  refine ⟨?_, ?_, ?_, ?_, ?_, ?_,
    fun o ms2 k n hex => suffixSearch_spec o ms2 k n hex, rfl, rfl⟩
  · intro h
    unfold adjustMemberName
    rw [h]
  · intro d hd he
    unfold adjustMemberName
    simp only [hd, he, if_true]
  · intro d hd he ha hno
    unfold adjustMemberName
    simp only [hd, he, ha, hno, Bool.false_eq_true, if_false, if_true,
      Option.isNone_none, Option.isNone_some]
  · intro d d2 hd he ha hd2 ha2 hno
    unfold adjustMemberName
    simp only [hd, he, ha, hd2, ha2, hno, Bool.false_eq_true, if_false, if_true,
      Option.isNone_none, Option.isNone_some]
  · intro d d2 d3 hd he ha hd2 ha2 hd3
    unfold adjustMemberName
    simp only [hd, he, ha, hd2, ha2, hd3, Bool.false_eq_true, if_false, if_true,
      Option.isNone_none, Option.isNone_some]
  · intro d hd he ha
    unfold adjustMemberName
    simp only [hd, he, ha, Bool.false_eq_true, if_false, if_true]

/-- C3 witness: both alternate-name renames fail on the identical-display
collision, so the second member receives the numeric suffix `Active_1`, and
that suffix candidate is indeed the first free one. -/
theorem c3_member_collision_resolution_witness :
    adjustMemberName c3MemberB [c3MemberA] =
      (true, { c3MemberB with name := some "Active_1" }, [c3MemberA]) ∧
    ([c3MemberA].find? (fun x =>
      x.name == some (suffixSearch (some "Active") [c3MemberA] 1 2))).isNone = true :=
  ⟨(c3_member_collision_resolution c3MemberB [c3MemberA]).2.2.2.2.1
      c3MemberA c3MemberA c3MemberA rfl rfl rfl rfl rfl rfl,
   ((c3_member_collision_resolution c3MemberB [c3MemberA]).2.2.2.2.2.2.1
      (some "Active") [c3MemberA] 2 1 ⟨1, by decide, by decide, by decide⟩).1⟩

/-- `setCurrent` does not touch the files map. -/
theorem lookupFile_setCurrent (s : PState) (c : Option String) (k : String) :
    lookupFile (setCurrent s c) k = lookupFile s k := rfl

/-- C2: the visit state machine.  A re-entrant `processFile` call on a
queued or processed document (or one with no parsed content) returns with
the state unchanged, every `processFile` run moves each document's visit
flags only forward while preserving content, and a fresh call on an
unvisited document with content leaves that document queued and processed
— together these make the guard a cycle-proof: the body runs at most once
per document. -/
theorem c2_visit_state_machine (fuel : Nat) (s : PState) (fid : String)
    (file : SpecificationFile) :
    (lookupFile s fid = some file →
      (file.queued = true ∨ file.processed = true ∨ file.content = none) →
      exec fuel (.processFile fid) s = (s, Ret.unit)) ∧
    (∀ k g, lookupFile s k = some g →
      ∃ g2, lookupFile (exec fuel (.processFile fid) s).1 k = some g2 ∧
        (g.queued = true → g2.queued = true) ∧
        (g.processed = true → g2.processed = true) ∧
        (g.referenced = true → g2.referenced = true) ∧
        g2.content = g.content) ∧
    (lookupFile s fid = some file → file.queued = false → file.processed = false →
      ∀ c0, file.content = some c0 → 1 ≤ fuel →
      ∃ g2, lookupFile (exec fuel (.processFile fid) s).1 fid = some g2 ∧
        g2.queued = true ∧ g2.processed = true) := by
  refine ⟨?_, ?_, ?_⟩
  · intro hf hguard
    cases fuel with
    | zero => rfl
    | succ n =>
        have htrue : (file.processed || file.queued || file.content.isNone) = true := by
          rcases hguard with h | h | h
          · rw [h]; simp
          · rw [h]; simp
          · rw [h]; simp
        simp only [exec]
        rw [hf]
        (try dsimp only)
        rw [htrue]
        rfl
  · intro k g hg
    obtain ⟨g2, hg2, hle⟩ := (exec_inv fuel (.processFile fid) s).2.1 k g hg
    exact ⟨g2, hg2, hle.1, hle.2.1, hle.2.2.1, hle.2.2.2.1⟩
  · intro hf hq hp c0 hc hfuel
    cases fuel with
    | zero => omega
    | succ n =>
        have hguard : (file.processed || file.queued || file.content.isNone) = false := by
          rw [hq, hp, hc]; rfl
        have hs2 : lookupFile (setCurrent (updFile s fid
            (fun f => { f with queued := true })) (some file.filename)) fid =
            some { file with queued := true } := by
          rw [lookupFile_setCurrent, lookupFile_updFile, if_pos rfl, hf]
          rfl
        have key : ∀ s3 : PState,
            PInv (setCurrent (updFile s fid (fun f => { f with queued := true }))
              (some file.filename)) s3 →
            ∃ g2, lookupFile (setCurrent (updFile s3 fid
                (fun f => { f with processed := true })) s.currentFile) fid =
                some g2 ∧ g2.queued = true ∧ g2.processed = true := by
          intro s3 hinv
          obtain ⟨g, hg, hle⟩ := hinv.2.1 fid _ hs2
          refine ⟨{ g with processed := true }, ?_, hle.1 rfl, rfl⟩
          rw [lookupFile_setCurrent, lookupFile_updFile, if_pos rfl, hg]
          rfl
        simp only [exec]
        rw [hf]
        (try dsimp only)
        rw [hguard]
        (try dsimp only)
        rw [hc]
        cases c0 with
        | valueSet vs => exact key _ (exec_inv n _ _)
        | structureDefinition sd => exact key _ (exec_inv n _ _)
        | codeSystem cs => exact key _ (pinv_processCodeSystem _ _)
        | other rt => exact key _ (pinv_addError _ _)

/-- C2 witness: on the two-document base-type cycle, a re-entrant
`processFile` call after the run is a strict no-op, and a fresh
`processFile` on the unvisited cycle leaves the document queued and
processed (the run terminates despite the cycle). -/
theorem c2_visit_state_machine_witness :
    exec 5 (Call.processFile "A") (runProcessFiles 12 cycleMap) =
      (runProcessFiles 12 cycleMap, Ret.unit) ∧
    (∃ g2, lookupFile (exec 6 (Call.processFile "A") (initState cycleMap)).1 "A" =
      some g2 ∧ g2.queued = true ∧ g2.processed = true) :=
  ⟨(c2_visit_state_machine 5 (runProcessFiles 12 cycleMap) "A"
      ((lookupFile (runProcessFiles 12 cycleMap) "A").getD dummySpecFile)).1
      (by rfl) (Or.inl (by rfl)),
   (c2_visit_state_machine 6 (initState cycleMap) "A"
      ((lookupFile (initState cycleMap) "A").getD dummySpecFile)).2.2
      (by rfl) (by rfl) (by rfl)
      (mkStructureDef "A" "resource" (some "http://hl7.org/fhir/StructureDefinition/B")
        [mkElement "A" (some "A res")])
      (by rfl) (by omega)⟩

/-- `addTypeToResults` does not touch the files map. -/
theorem addTypeToResults_files (s : PState) (idx : Nat) :
    (addTypeToResults s idx).files = s.files := by
  unfold addTypeToResults
  dsimp only
  split
  · split <;> rfl
  · rfl

/-- `addTypeToResults` preserves document lookups. -/
theorem lookupFile_addTypeToResults (s : PState) (idx : Nat) (k : String) :
    lookupFile (addTypeToResults s idx) k = lookupFile s k := by
  unfold lookupFile
  rw [addTypeToResults_files]

/-- `referenceFile` on an already-referenced document is a strict no-op. -/
theorem referenceFile_noop (f : Nat) (s : PState) (k : String)
    (file : SpecificationFile) (hf : lookupFile s k = some file)
    (href : file.referenced = true) :
    exec f (.referenceFile k) s = (s, Ret.unit) := by
  cases f with
  | zero => rfl
  | succ n =>
      simp only [exec]
      rw [hf]
      dsimp only
      rw [href]
      rfl

/-- After a `referenceFile` call with positive fuel, the document is
flagged referenced. -/
theorem referenceFile_references (n : Nat) (s : PState) (k : String)
    (file : SpecificationFile) (hf : lookupFile s k = some file) :
    ∃ g, lookupFile (exec (n + 1) (.referenceFile k) s).1 k = some g ∧
      g.referenced = true := by
  simp only [exec]
  rw [hf]
  (try dsimp only)
  cases href : file.referenced with
  | true => exact ⟨file, hf, href⟩
  | false =>
      simp only [href, Bool.false_eq_true, if_false]
      (try dsimp only)
      have hs1 : lookupFile (updFile s k (fun f => { f with referenced := true })) k =
          some { file with referenced := true } := by
        rw [lookupFile_updFile, if_pos rfl, hf]
        rfl
      obtain ⟨g, hg, hle⟩ :=
        (exec_inv n (.processFile k)
          (updFile s k (fun f => { f with referenced := true }))).2.1 k _ hs1
      have hgref : g.referenced = true := hle.2.2.1 rfl
      split
      · split
        · refine ⟨g, ?_, hgref⟩
          rw [lookupFile_addTypeToResults]
          exact hg
        · exact ⟨g, hg, hgref⟩
      · exact ⟨g, hg, hgref⟩

/-- A successful lookup key occurs among the map keys. -/
theorem mem_fst_of_find (l : List (String × SpecificationFile)) (k : String)
    (f : SpecificationFile)
    (h : (l.find? (fun p => p.1 == k)).map Prod.snd = some f) :
    k ∈ l.map Prod.fst := by
  induction l with
  | nil => simp [List.find?] at h
  | cons p rest ih =>
      by_cases hp : p.1 = k
      · simp [hp]
      · have hp2 : (p.1 == k) = false := by simp [hp]
        simp only [List.find?, hp2] at h
        simp [ih h]

/-- Every map key looks up to some document. -/
theorem find_of_mem_fst (l : List (String × SpecificationFile)) (k : String)
    (h : k ∈ l.map Prod.fst) :
    ∃ f, (l.find? (fun p => p.1 == k)).map Prod.snd = some f := by
  induction l with
  | nil => simp at h
  | cons p rest ih =>
      by_cases hp : p.1 = k
      · exact ⟨p.2, by simp [List.find?, hp]⟩
      · have hp2 : (p.1 == k) = false := by simp [hp]
        simp only [List.map, List.mem_cons] at h
        rcases h with h | h
        · exact absurd h.symm hp
        · obtain ⟨f, hf⟩ := ih h
          exact ⟨f, by simp only [List.find?, hp2]; exact hf⟩

/-- Resource-kind detection depends only on the document content. -/
theorem isResourceDefinition_content (f g : SpecificationFile)
    (h : g.content = f.content) :
    isResourceDefinition g = isResourceDefinition f := by
  unfold isResourceDefinition
  rw [h]

/-- Constrained-type detection depends only on the document content. -/
theorem isConstrainedType_content (f g : SpecificationFile)
    (h : g.content = f.content) :
    isConstrainedType g = isConstrainedType f := by
  unfold isConstrainedType
  rw [h]

/-- After the seed sweep, every resource-kind, non-constrained document
whose key occurs in the sweep is flagged referenced (given enough fuel for
the list). -/
theorem seedLoop_references : ∀ (keys : List String) (n : Nat) (s : PState),
    keys.length ≤ n →
    ∀ k, k ∈ keys → ∀ file, lookupFile s k = some file →
      isResourceDefinition file = true → isConstrainedType file = false →
      ∃ g, lookupFile (exec (n + 1) (.seedLoop keys) s).1 k = some g ∧
        g.referenced = true := by
  intro keys
  induction keys with
  | nil =>
      intro n s _ k hk
      exact absurd hk (List.not_mem_nil k)
  | cons k0 rest ih =>
      intro n s hlen k hk file hf hrd hct
      simp only [exec]
      obtain ⟨m, rfl⟩ : ∃ m, n = m + 1 := ⟨n - 1, by simp at hlen; omega⟩
      rcases List.mem_cons.mp hk with hk0 | hkr
      · subst hk0
        rw [hf]
        (try dsimp only)
        rw [hrd, hct]
        (try dsimp only)
        obtain ⟨g, hg, hgref⟩ := referenceFile_references m s k file hf
        obtain ⟨g2, hg2, hle⟩ :=
          (exec_inv (m + 1) (.seedLoop rest) (exec (m + 1) (.referenceFile k) s).1).2.1
            k g hg
        exact ⟨g2, hg2, hle.2.2.1 hgref⟩
      · have step : ∀ s1 : PState, PInv s s1 →
            ∃ g, lookupFile (exec (m + 1) (.seedLoop rest) s1).1 k = some g ∧
              g.referenced = true := by
          intro s1 hinv
          obtain ⟨f1, hf1, hle1⟩ := hinv.2.1 k file hf
          exact ih m s1 (by simp at hlen; omega) k hkr f1 hf1
            (by rw [isResourceDefinition_content file f1 hle1.2.2.2.1]; exact hrd)
            (by rw [isConstrainedType_content file f1 hle1.2.2.2.1]; exact hct)
        split
        · split
          · split
            · exact step s (pinv_refl s)
            · exact step _ (exec_inv (m + 1) (.referenceFile k0) s)
          · exact step s (pinv_refl s)
        · exact step s (pinv_refl s)

/-- The seed sweep is a strict no-op when every resource-kind,
non-constrained document is already flagged referenced. -/
theorem seedLoop_noop : ∀ (keys : List String) (f : Nat) (s0 : PState),
    (∀ k, k ∈ keys → ∀ file, lookupFile s0 k = some file →
      isResourceDefinition file = true → isConstrainedType file = false →
      file.referenced = true) →
    exec f (.seedLoop keys) s0 = (s0, Ret.unit) := by
  intro keys
  induction keys with
  | nil =>
      intro f s0 _
      cases f with
      | zero => rfl
      | succ n => simp only [exec]
  | cons k0 rest ih =>
      intro f s0 hall
      cases f with
      | zero => rfl
      | succ n =>
          simp only [exec]
          have hrest : exec n (.seedLoop rest) s0 = (s0, Ret.unit) :=
            ih n s0 (fun k hk => hall k (List.mem_cons_of_mem k0 hk))
          cases hf : lookupFile s0 k0 with
          | none =>
              (try rw [hf])
              (try dsimp only)
              exact hrest
          | some file =>
              (try rw [hf])
              (try dsimp only)
              cases hrd : isResourceDefinition file with
              | false =>
                  (try rw [hrd])
                  (try dsimp only)
                  exact hrest
              | true =>
                  (try rw [hrd])
                  (try dsimp only)
                  cases hct : isConstrainedType file with
                  | true =>
                      (try rw [hct])
                      (try dsimp only)
                      exact hrest
                  | false =>
                      (try rw [hct])
                      (try dsimp only)
                      rw [referenceFile_noop n s0 k0 file hf
                        (hall k0 (List.mem_cons_self k0 rest) file hf hrd hct)]
                      exact hrest

/-- Auxiliary for C8: after a full first pass with enough fuel, every
resource-definition document that is not a constrained type carries
`referenced = true` in the returned files map. -/
theorem firstRun_all_referenced (n : Nat) (m : List (String × SpecificationFile))
    (hlen : m.length ≤ n) (k : String) (file1 : SpecificationFile)
    (hf1 : lookupFile (initState ((runProcessFiles (n + 1) m).files)) k = some file1)
    (hrd1 : isResourceDefinition file1 = true)
    (hct1 : isConstrainedType file1 = false) :
    file1.referenced = true := by
  have hf1' : lookupFile (exec (n + 1) (.seedLoop (m.map Prod.fst)) (initState m)).1 k =
      some file1 := hf1
  have hinv := exec_inv (n + 1) (.seedLoop (m.map Prod.fst)) (initState m)
  have hk : k ∈ (exec (n + 1) (.seedLoop (m.map Prod.fst)) (initState m)).1.files.map
      Prod.fst :=
    mem_fst_of_find _ k file1 hf1'
  rw [hinv.1] at hk
  obtain ⟨file0, hf0⟩ := find_of_mem_fst m k hk
  obtain ⟨g, hg, hle⟩ := hinv.2.1 k file0 hf0
  rw [hg] at hf1'
  have hgf : g = file1 := Option.some.inj hf1'
  subst hgf
  have hrd0 : isResourceDefinition file0 = true := by
    rw [isResourceDefinition_content file0 g hle.2.2.2.1] at hrd1
    exact hrd1
  have hct0 : isConstrainedType file0 = false := by
    rw [isConstrainedType_content file0 g hle.2.2.2.1] at hct1
    exact hct1
  obtain ⟨g2, hg2, hg2ref⟩ :=
    seedLoop_references (m.map Prod.fst) n (initState m) (by simpa using hlen)
      k hk file0 hf0 hrd0 hct0
  rw [hg] at hg2
  rw [Option.some.inj hg2]
  exact hg2ref

/-- C8: the spec's two-run determinism claim is refuted by the in-place
visitation flags: `processFiles` marks each document record `queued`,
`processed` and `referenced`, so a literal second call over the same
(now mutated) document map skips every document and returns empty type
and error lists; the amended property is that the second run's state is
exactly the fresh initial state over the mutated map, hence its
`result.types` and `result.errors` are both empty. -/
theorem c8_rerun_on_mutated_map (fuel1 fuel2 : Nat)
    (m : List (String × SpecificationFile)) (hfuel : m.length + 1 ≤ fuel1) :
    runProcessFiles fuel2 ((runProcessFiles fuel1 m).files) =
      initState ((runProcessFiles fuel1 m).files) ∧
    (runProcessFiles fuel2 ((runProcessFiles fuel1 m).files)).resultTypes = [] ∧
    (runProcessFiles fuel2 ((runProcessFiles fuel1 m).files)).errors = [] := by
  obtain ⟨n, rfl⟩ : ∃ n, fuel1 = n + 1 := ⟨fuel1 - 1, by omega⟩
  have hlen : m.length ≤ n := by omega
  have hall : ∀ k, k ∈ ((runProcessFiles (n + 1) m).files).map Prod.fst →
      ∀ file, lookupFile (initState ((runProcessFiles (n + 1) m).files)) k = some file →
      isResourceDefinition file = true → isConstrainedType file = false →
      file.referenced = true :=
    fun k _ file hf hrd hct => firstRun_all_referenced n m hlen k file hf hrd hct
  have h2 := seedLoop_noop (((runProcessFiles (n + 1) m).files).map Prod.fst) fuel2
    (initState ((runProcessFiles (n + 1) m).files)) hall
  have hmain : runProcessFiles fuel2 ((runProcessFiles (n + 1) m).files) =
      initState ((runProcessFiles (n + 1) m).files) := congrArg Prod.fst h2
  exact ⟨hmain, by rw [hmain]; rfl, by rw [hmain]; rfl⟩

/-- Witness for C8: the hypothesis is satisfiable and the theorem applies
at the one-document fixture. -/
theorem c8_rerun_on_mutated_map_witness :
    c8Map.length + 1 ≤ 10 ∧
    (runProcessFiles 10 ((runProcessFiles 10 c8Map).files)).resultTypes = [] ∧
    (runProcessFiles 10 ((runProcessFiles 10 c8Map).files)).errors = [] :=
  ⟨by decide, (c8_rerun_on_mutated_map 10 10 c8Map (by decide)).2⟩

/-- Counterexample for C8: on the one-resource fixture the first run
produces the type list `[0]`, while the literal second run over the same
mutated records produces `[]` — the two runs are not byte-identical. -/
theorem c8_counterexample :
    (runProcessFiles 10 c8Map).resultTypes = [0] ∧
    (runProcessFiles 10 c8Map).errors = [] ∧
    (runProcessFiles 10 ((runProcessFiles 10 c8Map).files)).resultTypes = [] ∧
    (runProcessFiles 10 ((runProcessFiles 10 c8Map).files)).errors = [] := by
  refine ⟨?_, ?_, ?_, ?_⟩ <;> rfl

/-- Updating the freshly appended last element of a list rewrites only it. -/
theorem updAt_append_length {α : Type} (l : List α) (a : α) (f : α → α) :
    updAt (l ++ [a]) l.length f = l ++ [f a] := by
  induction l with
  | nil => rfl
  | cons x rest ih =>
      simp only [List.cons_append, List.length_cons, updAt, List.append_eq, ih]

/-- Node updates do not touch the files map. -/
theorem lookupFile_updNode (s : PState) (i : Nat) (f : TypeNodeV → TypeNodeV)
    (k : String) : lookupFile (updNode s i f) k = lookupFile s k := rfl

/-- Replacing the heap does not touch the files map. -/
theorem lookupFile_heapSet (s : PState) (h : List TypeNodeV) (k : String) :
    lookupFile { s with heap := h } k = lookupFile s k := rfl

/-- Error reporting does not touch the files map. -/
theorem lookupFile_addError (s : PState) (m : String) (k : String) :
    lookupFile (addError s m) k = lookupFile s k := rfl

/-- Node allocation does not touch the files map. -/
theorem lookupFile_allocNode (s : PState) (nd : TypeNodeV) (k : String) :
    lookupFile (allocNode s nd).1 k = lookupFile s k := rfl

/-- Counterexample for C1: resource `A` names the absent base `Missing`
and `B` is well-formed; the run reports the single expected error, yet
`A`'s type node — index 0, with the unresolved name recorded as its
`baseType` — is still in the output list `[0, 1]` next to `B`'s, and both
names are registered. -/
theorem c1_counterexample :
    (runProcessFiles 10 c1Map).errors = ["a.json: Unknown base type 'Missing'."] ∧
    (runProcessFiles 10 c1Map).resultTypes = [0, 1] ∧
    (runProcessFiles 10 c1Map).heap =
      [.interfaceNode "A" catResource none (some "Missing") [],
       .interfaceNode "B" catResource (some "B res") none []] ∧
    (runProcessFiles 10 c1Map).typesByName = [("A", 0), ("B", 1)] := by
  refine ⟨?_, ?_, ?_, ?_⟩ <;> rfl

/-- C1 (amended): when a structure definition's `baseDefinition` profile
resolves to a base-type name that is not a key of the document map, the
type-definition pass appends exactly one error naming it and processes no
members — but the type node has already been created and attached to the
document record, with the unresolved name recorded as its `baseType`, so
the node is still pushed to the output list once the referencing pass
finishes; the failing pass itself leaves the output list, the registry
and every other document record untouched. -/
theorem c1_unknown_base_type (n : Nat) (s : PState) (fid : String)
    (file : SpecificationFile) (content : StructureDefinitionContent)
    (bd bt : String)
    (hf : lookupFile s fid = some file)
    (hc : file.content = some (.structureDefinition content))
    (hid : truthyS content.id = true)
    (hbd : content.baseDefinition = some bd)
    (hsub : substrContains bd "http://hl7.org/fhir/StructureDefinition/" = true)
    (hbt : strDropChars bd ("http://hl7.org/fhir/StructureDefinition/".length) = bt)
    (hbtt : truthyS (some bt) = true)
    (hlk : lookupFile s bt = none) :
    (exec (n + 1) (.typeDef fid) s).1.errors =
      s.errors ++ [formatError s.currentFile ("Unknown base type '" ++ bt ++ "'.")] ∧
    (exec (n + 1) (.typeDef fid) s).1.resultTypes = s.resultTypes ∧
    (exec (n + 1) (.typeDef fid) s).1.typesByName = s.typesByName ∧
    (exec (n + 1) (.typeDef fid) s).1.heap =
      s.heap ++ [.interfaceNode (content.id.getD "")
        (if isResourceDefinition file then catResource else catDataType)
        none (some bt) []] ∧
    lookupFile (exec (n + 1) (.typeDef fid) s).1 fid =
      some { file with type := some s.heap.length } ∧
    (∀ k, k ≠ fid → lookupFile (exec (n + 1) (.typeDef fid) s).1 k = lookupFile s k) := by
  have hne : bt ≠ fid := by
    intro h
    rw [h, hf] at hlk
    exact Option.noConfusion hlk
  simp only [exec]
  rw [hf]
  (try dsimp only)
  rw [hc]
  (try dsimp only)
  rw [hid]
  simp only [Bool.not_true, Bool.false_eq_true, if_false]
  (try dsimp only)
  rw [hbd]
  (try dsimp only)
  simp only [getResourceNameFromProfile]
  rw [hsub]
  simp only [Bool.not_true, Bool.false_eq_true, if_false]
  (try dsimp only)
  rw [hbt, hbtt]
  simp only [if_true, Option.getD_some]
  (try dsimp only)
  rw [lookupFile_updNode, lookupFile_updFile, if_neg hne, lookupFile_allocNode, hlk]
  (try dsimp only)
  refine ⟨?_, rfl, rfl, ?_, ?_, ?_⟩
  · rfl
  · simp only [addError, updNode, updFile, allocNode, Option.getD_some]
    (try dsimp only)
    rw [updAt_append_length]
    rfl
  · rw [lookupFile_addError, lookupFile_updNode, lookupFile_updFile, if_pos rfl,
      lookupFile_allocNode, hf]
    rw [← hc]
    rfl
  · intro k hk
    rw [lookupFile_addError, lookupFile_updNode, lookupFile_updFile, if_neg hk,
      lookupFile_allocNode]

/-- Witness for C1: the amended theorem applies to the fixture's document
`A`, whose base profile names the absent `Missing`. -/
theorem c1_unknown_base_type_witness :
    lookupFile (initState c1Map) "A" = some (mkSpecFile "A" "a.json"
      (mkStructureDef "A" "resource"
        (some "http://hl7.org/fhir/StructureDefinition/Missing")
        [mkElement "A" (some "A res")])) ∧
    (exec 1 (.typeDef "A") (initState c1Map)).1.errors =
      (initState c1Map).errors ++ [formatError (initState c1Map).currentFile
        ("Unknown base type '" ++ "Missing" ++ "'.")] ∧
    (exec 1 (.typeDef "A") (initState c1Map)).1.resultTypes =
      (initState c1Map).resultTypes :=
  have h := c1_unknown_base_type 0 (initState c1Map) "A"
    (mkSpecFile "A" "a.json" (mkStructureDef "A" "resource"
      (some "http://hl7.org/fhir/StructureDefinition/Missing")
      [mkElement "A" (some "A res")]))
    { id := some "A", kind := some "resource", derivation := none,
      baseDefinition := some "http://hl7.org/fhir/StructureDefinition/Missing",
      differential := some ⟨[mkElement "A" (some "A res")]⟩, copyright := none }
    "http://hl7.org/fhir/StructureDefinition/Missing" "Missing"
    rfl rfl (by decide) rfl (by decide) (by decide) (by decide) rfl
  ⟨rfl, h.1, h.2.1⟩
